import Mathlib

/-!
Verification of the libhelper Mach-O parser (`src/macho/macho.c`,
`include/libhelper-macho/macho-header.h`, `include/macho/macho-command.h`)
against its natural-language specification.

Bytes are modelled as `Nat` values below 256; buffers as `List Nat`;
byte sources as total functions `Nat → Nat` (each application is reduced
mod 256 at read time).  Machine integers are `Nat` with explicit bounds
where overflow matters.  Fallible operations return `Except`.
-/

set_option maxRecDepth 4000

deriving instance DecidableEq for Except

/-- Error taxonomy from spec section 7.  Only the kinds exercised by the
modelled operations are listed. -/
inductive parse_error where
  | BadMagic
  | Truncated
  | MalformedLoadCommand
  | MalformedString
  | UnsupportedFormat
  | IoOutOfRange
deriving DecidableEq, Repr

/- ----------------------------------------------------------------- -/
/- Embedding of `src/src/macho/macho.c` : `macho_read_magic`.        -/
/- ----------------------------------------------------------------- -/

/-- Outcome of a call to `macho_read_magic`: the C function either returns a
`uint32_t`, or prints an error and terminates the whole process via
`exit(0)` (modelled as `exited`). -/
inductive ReadMagicResult where
  | exited
  | value (v : Nat)
deriving DecidableEq, Repr

/-- Value of the local variable `magic` after the line
`memcpy (magic, &buf, sizeof(uint32_t));` in `macho_read_magic`.
The destination argument is the *value* of `magic` (zero, converted to a
null pointer), not `&magic`, and the source is `&buf` (the address of the
pointer variable), so the local variable `magic` is never written: it keeps
its initialiser `0`, for every buffer and every offset. -/
def macho_read_magic_memcpy (buf : List Nat) (offset : Nat) : Nat := 0

/-- Shallow embedding of `macho_read_magic` (src/src/macho/macho.c lines
24-34): `magic` is initialised to 0, the defective `memcpy` leaves it
unchanged, and the `if (!magic)` branch prints and calls `exit (0)`;
otherwise `magic` is returned. -/
def macho_read_magic (buf : List Nat) (offset : Nat) : ReadMagicResult :=
  let magic := macho_read_magic_memcpy buf offset
  if magic = 0 then ReadMagicResult.exited else ReadMagicResult.value magic

/-- The behaviour the spec assigns to `macho_read_magic` (spec section 9,
open question (a)): read the 4 little-endian bytes of `buf` starting at
`offset` and assemble them into a 32-bit value. -/
def read_le32 (buf : List Nat) (offset : Nat) : Nat :=
  buf.getD offset 0 % 256
    + 256 * (buf.getD (offset + 1) 0 % 256)
    + 65536 * (buf.getD (offset + 2) 0 % 256)
    + 16777216 * (buf.getD (offset + 3) 0 % 256)

/- ----------------------------------------------------------------- -/
/- Constants from `include/libhelper-macho/macho-header.h`.          -/
/- ----------------------------------------------------------------- -/

def CPU_ARCH_MASK : Nat := 0xff000000
def CPU_ARCH_ABI64 : Nat := 0x01000000
def CPU_ARCH_ABI64_32 : Nat := 0x02000000

def MACH_TYPE_UNKNOWN : Nat := 0x0
def MACH_TYPE_OBJECT : Nat := 0x1
def MACH_TYPE_EXECUTE : Nat := 0x2
def MACH_TYPE_DYLIB : Nat := 0x6
def MACH_TYPE_KEXT_BUNDLE : Nat := 0xb

def MACH_MAGIC_64 : Nat := 0xfeedfacf
def MACH_CIGAM_64 : Nat := 0xcffaedfe
def MACH_MAGIC_32 : Nat := 0xfeedface
def MACH_CIGAM_32 : Nat := 0xcefaedfe
def MACH_MAGIC_UNIVERSAL : Nat := 0xcafebabe
def MACH_CIGAM_UNIVERSAL : Nat := 0xbebafeca

def CPU_TYPE_ANY : Nat := 100
def CPU_TYPE_X86 : Nat := 6
def CPU_TYPE_X86_64 : Nat := 0x01000007
def CPU_TYPE_ARM : Nat := 12
def CPU_TYPE_ARM64 : Nat := CPU_TYPE_ARM ||| CPU_ARCH_ABI64
def CPU_TYPE_ARM64_32 : Nat := CPU_TYPE_ARM ||| CPU_ARCH_ABI64_32

def CPU_SUBTYPE_ANY : Nat := 100
def CPU_SUBTYPE_ARM64_ALL : Nat := 0
def CPU_SUBTYPE_ARM64_V8 : Nat := 1
def CPU_SUBTYPE_ARM64E : Nat := 2

/- Constants from `include/macho/macho-command.h`. -/

def PLATFORM_MACOS : Nat := 1
def PLATFORM_IOS : Nat := 2
def PLATFORM_TVOS : Nat := 3
def PLATFORM_WATCHOS : Nat := 4
def PLATFORM_BRIDGEOS : Nat := 5
def PLATFORM_MACCATALYST : Nat := 6
def PLATFORM_IOSSIMULATOR : Nat := 7
def PLATFORM_TVOSSIMULATOR : Nat := 8
def PLATFORM_WATCHOSSIMULATOR : Nat := 9
def PLATFORM_DRIVERKIT : Nat := 10

def TOOL_CLANG : Nat := 1
def TOOL_SWIFT : Nat := 2
def TOOL_LD : Nat := 3

/- ----------------------------------------------------------------- -/
/- Header kind classification (spec sections 3 and 4.2).             -/
/- ----------------------------------------------------------------- -/

/-- `mach_header_type_t` from include/libhelper-macho/macho-header.h
lines 204-209. -/
inductive mach_header_type_t where
  | MH_TYPE_UNKNOWN
  | MH_TYPE_MACHO64
  | MH_TYPE_MACHO32
  | MH_TYPE_FAT
deriving DecidableEq, Repr

/-- Modelled from the spec: `mach_header_verify` is declared in
include/libhelper-macho/macho-header.h but its body is not under src/.
Spec section 4.2: inspect the first 4 bytes of the file, assemble them as a
raw little-endian `u32`, and compare against the six recognized magic
constants to classify the header kind. -/
def mach_header_verify (b0 b1 b2 b3 : Nat) : mach_header_type_t :=
  let magic := read_le32 [b0, b1, b2, b3] 0
  if magic = MACH_MAGIC_64 then mach_header_type_t.MH_TYPE_MACHO64
  else if magic = MACH_CIGAM_64 then mach_header_type_t.MH_TYPE_MACHO64
  else if magic = MACH_MAGIC_32 then mach_header_type_t.MH_TYPE_MACHO32
  else if magic = MACH_CIGAM_32 then mach_header_type_t.MH_TYPE_MACHO32
  else if magic = MACH_MAGIC_UNIVERSAL then mach_header_type_t.MH_TYPE_FAT
  else if magic = MACH_CIGAM_UNIVERSAL then mach_header_type_t.MH_TYPE_FAT
  else mach_header_type_t.MH_TYPE_UNKNOWN

/-- Modelled from the spec: section 7, `BadMagic` is raised exactly when the
first 4 bytes are none of the recognized magics; otherwise the header kind
is reported. -/
def mach_header_verify_checked (b0 b1 b2 b3 : Nat) :
    Except parse_error mach_header_type_t :=
  match mach_header_verify b0 b1 b2 b3 with
  | mach_header_type_t.MH_TYPE_UNKNOWN => Except.error parse_error.BadMagic
  | k => Except.ok k

/- ----------------------------------------------------------------- -/
/- Shared version decoders (spec section 4.5).                       -/
/- ----------------------------------------------------------------- -/

/-- Modelled from the spec: `mach_lc_load_dylib_format_version` is declared
in include/macho/macho-command.h line 523 with no body under src/.  Spec
section 4.5: a `u32` version renders as "X.Y.Z" with `X = bits 31:16`,
`Y = bits 15:8`, `Z = bits 7:0`; the C idiom extracts the fields by shift
and mask. -/
def mach_lc_load_dylib_format_version (vers : Nat) : String :=
  toString ((vers >>> 16) &&& 0xffff) ++ "." ++
  toString ((vers >>> 8) &&& 0xff) ++ "." ++
  toString (vers &&& 0xff)

/-- Modelled from the spec: `mach_lc_source_version_string` is declared in
include/macho/macho-command.h line 201 with no body under src/.  Spec
section 4.5: a `u64` source version renders as "A.B.C.D.E" with field
widths 24/10/10/10/10 taken MSB-first (matching the comment
`A.B.C.D.E packed as a24.b10.c10.d10.e10` on
`mach_source_version_command_t`). -/
def mach_lc_source_version_string (version : Nat) : String :=
  toString ((version >>> 40) &&& 0xffffff) ++ "." ++
  toString ((version >>> 30) &&& 0x3ff) ++ "." ++
  toString ((version >>> 20) &&& 0x3ff) ++ "." ++
  toString ((version >>> 10) &&& 0x3ff) ++ "." ++
  toString (version &&& 0x3ff)

/- ----------------------------------------------------------------- -/
/- Load-command walker (spec section 4.4).                           -/
/- ----------------------------------------------------------------- -/

/-- `mach_load_command_t` from include/macho/macho-command.h lines 157-160:
the 8-byte prefix every load command starts with. -/
structure mach_load_command_t where
  cmd : Nat
  cmdsize : Nat
deriving DecidableEq, Repr

/-- `mach_command_info_t` from include/macho/macho-command.h lines 168-172,
extended with the `raw` capture of `cmdsize` bytes that spec section 3
gives the parser-internal command descriptor. -/
structure mach_command_info_t where
  lc : mach_load_command_t
  type : Nat
  off : Nat
  raw : List Nat
deriving DecidableEq, Repr

/-- Little-endian 32-bit read from a total byte source (each byte is the
source value reduced mod 256). -/
def read_u32 (mem : Nat → Nat) (off : Nat) : Nat :=
  mem off % 256 + 256 * (mem (off + 1) % 256)
    + 65536 * (mem (off + 2) % 256) + 16777216 * (mem (off + 3) % 256)

/-- Capture one command descriptor at `cursor`: the 8-byte prefix
(`cmd`, `cmdsize`) plus the raw `cmdsize` bytes starting at `cursor`. -/
def capture_command (mem : Nat → Nat) (cursor : Nat) : mach_command_info_t :=
  let cmd := read_u32 mem cursor
  let cmdsize := read_u32 mem (cursor + 4)
  { lc := { cmd := cmd, cmdsize := cmdsize }
    type := cmd
    off := cursor
    raw := (List.range cmdsize).map (fun i => mem (cursor + i) % 256) }

/-- Modelled from the spec: the body of `mach_command_info_load` and the walk
loop that drives it are not under src/ (only the declaration at
include/macho/macho-command.h line 180).  Spec section 4.4: for each of the
remaining commands, read the 8-byte prefix at the running cursor, require
`cmdsize ≥ 8` and `cursor + cmdsize ≤ limit` (`limit = base + sizeofcmds`),
capture the descriptor, and advance the cursor by `cmdsize`; a violation is
`MalformedLoadCommand`. -/
def mach_command_walk_aux (mem : Nat → Nat) (limit : Nat) :
    Nat → Nat → Except parse_error (List mach_command_info_t × Nat)
  | 0, cursor => Except.ok ([], cursor)
  | n + 1, cursor =>
      let cmdsize := read_u32 mem (cursor + 4)
      if cmdsize < 8 then Except.error parse_error.MalformedLoadCommand
      else if limit < cursor + cmdsize then
        Except.error parse_error.MalformedLoadCommand
      else
        match mach_command_walk_aux mem limit n (cursor + cmdsize) with
        | Except.error e => Except.error e
        | Except.ok (rest, fin) =>
            Except.ok (capture_command mem cursor :: rest, fin)

/-- Modelled from the spec: the top-level walk over
`(base_of_stream, sizeofcmds, ncmds)` (spec section 4.4).  After the loop
the cursor must equal `base + sizeofcmds`, otherwise the walk fails with
`MalformedLoadCommand`. -/
def mach_command_walk (mem : Nat → Nat) (base sizeofcmds ncmds : Nat) :
    Except parse_error (List mach_command_info_t) :=
  match mach_command_walk_aux mem (base + sizeofcmds) ncmds base with
  | Except.error e => Except.error e
  | Except.ok (cmds, fin) =>
      if fin = base + sizeofcmds then Except.ok cmds
      else Except.error parse_error.MalformedLoadCommand

/-- The running cursor of the walk: `walk_cursor mem cursor i` is the cursor
after `i` commands starting from `cursor`, each advancing by the `cmdsize`
read at its own position. -/
def walk_cursor (mem : Nat → Nat) : Nat → Nat → Nat
  | cursor, 0 => cursor
  | cursor, i + 1 => walk_cursor mem (cursor + read_u32 mem (cursor + 4)) i

/-- A per-command validation failure at `cursor`: `cmdsize < 8` or the
command overruns `limit = base + sizeofcmds`. -/
def walk_step_bad (mem : Nat → Nat) (limit cursor : Nat) : Prop :=
  read_u32 mem (cursor + 4) < 8 ∨ limit < cursor + read_u32 mem (cursor + 4)

instance (mem : Nat → Nat) (limit cursor : Nat) :
    Decidable (walk_step_bad mem limit cursor) := by
  unfold walk_step_bad; infer_instance

/- ----------------------------------------------------------------- -/
/- Endianness round-trip (C7): decoded records.                      -/
/- ----------------------------------------------------------------- -/

/-- `mach_header_64` from include/libhelper-macho/macho-header.h lines
220-229 (all fields are 32-bit on disk). -/
structure mach_header_64_t where
  magic : Nat
  cputype : Nat
  cpusubtype : Nat
  filetype : Nat
  ncmds : Nat
  sizeofcmds : Nat
  flags : Nat
  reserved : Nat
deriving DecidableEq, Repr

/-- Modelled from the spec: the `section_64` record (spec section 3,
`LC_SEGMENT_64` payload; the defining header is not under src/).
`sectname` and `segname` are fixed 16-byte names. -/
structure mach_section_64_t where
  sectname : List Nat
  segname : List Nat
  addr : Nat
  size : Nat
  offset : Nat
  align : Nat
  reloff : Nat
  nreloc : Nat
  flags : Nat
  reserved1 : Nat
  reserved2 : Nat
  reserved3 : Nat
deriving DecidableEq, Repr

/-- Modelled from the spec: the `LC_SEGMENT_64` command payload (spec
section 3), with its trailing `nsects` section records. -/
structure mach_segment_command_64_t where
  segname : List Nat
  vmaddr : Nat
  vmsize : Nat
  fileoff : Nat
  filesize : Nat
  maxprot : Nat
  initprot : Nat
  nsects : Nat
  flags : Nat
  sections : List mach_section_64_t
deriving DecidableEq, Repr

/-- `nlist_64` on-disk symbol record (spec sections 3 and 6):
16 bytes `(n_strx: u32, n_type: u8, n_sect: u8, n_desc: u16, n_value: u64)`. -/
structure nlist_64 where
  n_strx : Nat
  n_type : Nat
  n_sect : Nat
  n_desc : Nat
  n_value : Nat
deriving DecidableEq, Repr

/-- A decoded symbol: the `nlist_64` record plus its name resolved from the
string blob (spec section 4.6). -/
structure macho_symbol_t where
  name : List Nat
  sym : nlist_64
deriving DecidableEq, Repr

/-- A decoded command descriptor: `(kind, inclusive size, file offset)`
(spec section 3, command descriptor). -/
structure macho_cmd_desc_t where
  cmd : Nat
  cmdsize : Nat
  off : Nat
deriving DecidableEq, Repr

/-- The top-level decoded object (spec section 3, `macho`): header,
command descriptors, segments and symbols. -/
structure macho_t where
  header : mach_header_64_t
  commands : List macho_cmd_desc_t
  segments : List mach_segment_command_64_t
  symbols : List macho_symbol_t
deriving DecidableEq, Repr

/-- `fat_arch` from include/libhelper-macho/macho-header.h lines 260-266. -/
structure fat_arch where
  cputype : Nat
  cpusubtype : Nat
  offset : Nat
  size : Nat
  align : Nat
deriving DecidableEq, Repr

/-- Modelled from the spec: the numeric values of `LC_SEGMENT_64` and
`LC_SYMTAB` live in consts/macho-command-const.h, which is not under src/;
the values are the Apple loader.h values the spec's LC_* names refer to. -/
def LC_SYMTAB : Nat := 0x2
def LC_SEGMENT_64 : Nat := 0x19

/- ----------------------------------------------------------------- -/
/- C7: an abstract (structured) thin 64-bit file and its encodings.  -/
/- ----------------------------------------------------------------- -/

/-- One load command of an abstract thin-64 file: a segment command, a
symbol-table command (its offsets are computed by the encoder), or any
other command kept as an opaque payload. -/
inductive file_cmd_t where
  | segment64 (seg : mach_segment_command_64_t)
  | symtab
  | other (cmd : Nat) (payload : List Nat)
deriving DecidableEq, Repr

/-- An abstract thin 64-bit Mach-O file: header fields, load commands,
symbol entries and the string blob.  `encode_macho_file` lays it out at
either endianness; the two encodings are byte-swapped copies of one
another (every multi-byte field swapped, the magic flipped to its CIGAM
form, endian-opaque bytes such as names, opaque payloads and the string
blob unchanged). -/
structure macho_file_t where
  cputype : Nat
  cpusubtype : Nat
  filetype : Nat
  flags : Nat
  reserved : Nat
  cmds : List file_cmd_t
  syms : List nlist_64
  strtab : List Nat
deriving DecidableEq, Repr

/-- Inclusive on-disk size of one abstract command. -/
def file_cmd_size : file_cmd_t → Nat
  | file_cmd_t.segment64 seg => 72 + 80 * seg.sections.length
  | file_cmd_t.symtab => 24
  | file_cmd_t.other _ payload => 8 + payload.length

/-- The `cmd` value one abstract command encodes. -/
def file_cmd_id : file_cmd_t → Nat
  | file_cmd_t.segment64 _ => LC_SEGMENT_64
  | file_cmd_t.symtab => LC_SYMTAB
  | file_cmd_t.other cmd _ => cmd

/-- `sizeofcmds` of an abstract file. -/
def sizeofcmds_of (cmds : List file_cmd_t) : Nat := (cmds.map file_cmd_size).sum

/-- 32-bit little- or big-endian encoding of a value. -/
def enc32 (e : Bool) (v : Nat) : List Nat :=
  if e then [v % 256, v / 256 % 256, v / 65536 % 256, v / 16777216 % 256]
  else [v / 16777216 % 256, v / 65536 % 256, v / 256 % 256, v % 256]

/-- 16-bit little- or big-endian encoding of a value. -/
def enc16 (e : Bool) (v : Nat) : List Nat :=
  if e then [v % 256, v / 256 % 256] else [v / 256 % 256, v % 256]

/-- 64-bit little- or big-endian encoding of a value. -/
def enc64 (e : Bool) (v : Nat) : List Nat :=
  if e then enc32 true (v % 4294967296) ++ enc32 true (v / 4294967296)
  else enc32 false (v / 4294967296) ++ enc32 false (v % 4294967296)

/-- On-disk encoding of one section record (80 bytes). -/
def encode_section (e : Bool) (s : mach_section_64_t) : List Nat :=
  s.sectname ++ s.segname ++ enc64 e s.addr ++ enc64 e s.size ++
  enc32 e s.offset ++ enc32 e s.align ++ enc32 e s.reloff ++ enc32 e s.nreloc ++
  enc32 e s.flags ++ enc32 e s.reserved1 ++ enc32 e s.reserved2 ++ enc32 e s.reserved3

/-- On-disk encoding of one `nlist_64` record (16 bytes). -/
def encode_nlist (e : Bool) (n : nlist_64) : List Nat :=
  enc32 e n.n_strx ++ [n.n_type % 256] ++ [n.n_sect % 256] ++
  enc16 e n.n_desc ++ enc64 e n.n_value

/-- On-disk encoding of one load command; the symbol-table command stores
the encoder-computed `symoff`, `nsyms`, `stroff`, `strsize`. -/
def encode_cmd (e : Bool) (symoff nsyms stroff strsize : Nat) : file_cmd_t → List Nat
  | file_cmd_t.segment64 seg =>
      enc32 e LC_SEGMENT_64 ++ enc32 e (72 + 80 * seg.sections.length) ++
      seg.segname ++ enc64 e seg.vmaddr ++ enc64 e seg.vmsize ++
      enc64 e seg.fileoff ++ enc64 e seg.filesize ++ enc32 e seg.maxprot ++
      enc32 e seg.initprot ++ enc32 e seg.sections.length ++ enc32 e seg.flags ++
      (seg.sections.map (encode_section e)).flatten
  | file_cmd_t.symtab =>
      enc32 e LC_SYMTAB ++ enc32 e 24 ++ enc32 e symoff ++ enc32 e nsyms ++
      enc32 e stroff ++ enc32 e strsize
  | file_cmd_t.other cmd payload =>
      enc32 e cmd ++ enc32 e (8 + payload.length) ++ payload

/-- Full on-disk encoding of an abstract thin-64 file: 32-byte header, the
command area, the `nlist_64` area, the string blob.  The magic bytes are
`CF FA ED FE` when `e = true` (little-endian file) and `FE ED FA CF` when
`e = false` (big-endian file). -/
def encode_macho_file (e : Bool) (f : macho_file_t) : List Nat :=
  let soc := sizeofcmds_of f.cmds
  let symoff := 32 + soc
  let stroff := symoff + 16 * f.syms.length
  enc32 e MACH_MAGIC_64 ++ enc32 e f.cputype ++ enc32 e f.cpusubtype ++
  enc32 e f.filetype ++ enc32 e f.cmds.length ++ enc32 e soc ++
  enc32 e f.flags ++ enc32 e f.reserved ++
  (f.cmds.map (encode_cmd e symoff f.syms.length stroff f.strtab.length)).flatten ++
  (f.syms.map (encode_nlist e)).flatten ++
  f.strtab

/-- On-disk encoding of one 20-byte fat arch record. -/
def encode_fat_arch (e : Bool) (a : fat_arch) : List Nat :=
  enc32 e a.cputype ++ enc32 e a.cpusubtype ++
  enc32 e a.offset ++ enc32 e a.size ++ enc32 e a.align

/-- Encoding of a universal (FAT) header plus arch table: `e = true` is the
reversed form (first bytes `BE BA FE CA`, little-endian records), `e =
false` the standard form (first bytes `CA FE BA BE`, big-endian records). -/
def encode_fat (e : Bool) (archs : List fat_arch) : List Nat :=
  enc32 e MACH_MAGIC_UNIVERSAL ++ enc32 e archs.length ++
  (archs.map (encode_fat_arch e)).flatten

/- ----------------------------------------------------------------- -/
/- C7: well-formedness of an abstract file (field bounds).           -/
/- ----------------------------------------------------------------- -/

/-- Field bounds and name lengths of a section record. -/
def section_wf (s : mach_section_64_t) : Prop :=
  s.sectname.length = 16 ∧ s.segname.length = 16 ∧
  s.addr < 18446744073709551616 ∧ s.size < 18446744073709551616 ∧
  s.offset < 4294967296 ∧ s.align < 4294967296 ∧
  s.reloff < 4294967296 ∧ s.nreloc < 4294967296 ∧ s.flags < 4294967296 ∧
  s.reserved1 < 4294967296 ∧ s.reserved2 < 4294967296 ∧ s.reserved3 < 4294967296

instance (s : mach_section_64_t) : Decidable (section_wf s) := by
  unfold section_wf; infer_instance

/-- Field bounds of a segment command; `nsects` must agree with the number
of trailing section records (spec section 3, invariant 5). -/
def segment_wf (g : mach_segment_command_64_t) : Prop :=
  g.segname.length = 16 ∧
  g.vmaddr < 18446744073709551616 ∧ g.vmsize < 18446744073709551616 ∧
  g.fileoff < 18446744073709551616 ∧ g.filesize < 18446744073709551616 ∧
  g.maxprot < 4294967296 ∧ g.initprot < 4294967296 ∧ g.flags < 4294967296 ∧
  g.nsects = g.sections.length ∧ (∀ sec ∈ g.sections, section_wf sec)

instance (g : mach_segment_command_64_t) : Decidable (segment_wf g) := by
  unfold segment_wf; infer_instance

/-- Well-formedness of one abstract command: a raw command must not collide
with the two specially decoded kinds, and all fields are in range. -/
def file_cmd_wf : file_cmd_t → Prop
  | file_cmd_t.segment64 seg => segment_wf seg
  | file_cmd_t.symtab => True
  | file_cmd_t.other cmd _ =>
      cmd < 4294967296 ∧ cmd ≠ LC_SEGMENT_64 ∧ cmd ≠ LC_SYMTAB

instance (c : file_cmd_t) : Decidable (file_cmd_wf c) := by
  cases c <;> unfold file_cmd_wf <;> infer_instance

/-- Field bounds of an `nlist_64` record. -/
def nlist_wf (n : nlist_64) : Prop :=
  n.n_strx < 4294967296 ∧ n.n_type < 256 ∧ n.n_sect < 256 ∧
  n.n_desc < 65536 ∧ n.n_value < 18446744073709551616

instance (n : nlist_64) : Decidable (nlist_wf n) := by
  unfold nlist_wf; infer_instance

/-- Well-formedness of an abstract thin-64 file: header fields fit in 32
bits, every command and symbol is well formed, and the whole layout fits
in a 32-bit file offset. -/
def macho_file_wf (f : macho_file_t) : Prop :=
  f.cputype < 4294967296 ∧ f.cpusubtype < 4294967296 ∧
  f.filetype < 4294967296 ∧ f.flags < 4294967296 ∧ f.reserved < 4294967296 ∧
  f.cmds.length < 4294967296 ∧
  32 + sizeofcmds_of f.cmds + 16 * f.syms.length + f.strtab.length < 4294967296 ∧
  (∀ c ∈ f.cmds, file_cmd_wf c) ∧ (∀ n ∈ f.syms, nlist_wf n)

instance (f : macho_file_t) : Decidable (macho_file_wf f) := by
  unfold macho_file_wf; infer_instance

/-- Field bounds of a fat arch record (all five fields are u32). -/
def fat_arch_wf (a : fat_arch) : Prop :=
  a.cputype < 4294967296 ∧ a.cpusubtype < 4294967296 ∧
  a.offset < 4294967296 ∧ a.size < 4294967296 ∧ a.align < 4294967296

instance (a : fat_arch) : Decidable (fat_arch_wf a) := by
  unfold fat_arch_wf; infer_instance

/- ----------------------------------------------------------------- -/
/- C7: the parser, modelled from spec sections 4.2 to 4.6.           -/
/- ----------------------------------------------------------------- -/

/-- Parser state: the remaining bytes and the absolute file offset of the
first remaining byte. -/
structure pstate where
  rem : List Nat
  off : Nat
deriving DecidableEq, Repr

/-- Sequencing of fallible parsing steps. -/
def pbind {α β : Type} (x : Except parse_error (α × pstate))
    (f : α → pstate → Except parse_error β) : Except parse_error β :=
  match x with
  | Except.error err => Except.error err
  | Except.ok (a, s) => f a s

/-- Read `n` raw bytes; reading past the end of the stream is `Truncated`
(spec sections 4.1 and 7). -/
def p_bytes (n : Nat) (s : pstate) : Except parse_error (List Nat × pstate) :=
  if s.rem.length < n then Except.error parse_error.Truncated
  else Except.ok (s.rem.take n, { rem := s.rem.drop n, off := s.off + n })

/-- A validation step: succeed without consuming input, or fail with the
given error. -/
def p_check (c : Prop) [Decidable c] (err : parse_error) (s : pstate) :
    Except parse_error (Unit × pstate) :=
  if c then Except.ok ((), s) else Except.error err

/-- Assemble 4 bytes at the given endianness. -/
def asm32 (e : Bool) (bs : List Nat) : Nat :=
  if e then
    bs.getD 0 0 % 256 + 256 * (bs.getD 1 0 % 256) + 65536 * (bs.getD 2 0 % 256)
      + 16777216 * (bs.getD 3 0 % 256)
  else
    bs.getD 3 0 % 256 + 256 * (bs.getD 2 0 % 256) + 65536 * (bs.getD 1 0 % 256)
      + 16777216 * (bs.getD 0 0 % 256)

/-- Assemble 2 bytes at the given endianness. -/
def asm16 (e : Bool) (bs : List Nat) : Nat :=
  if e then bs.getD 0 0 % 256 + 256 * (bs.getD 1 0 % 256)
  else bs.getD 1 0 % 256 + 256 * (bs.getD 0 0 % 256)

/-- Assemble 8 bytes at the given endianness. -/
def asm64 (e : Bool) (bs : List Nat) : Nat :=
  if e then asm32 true (bs.take 4) + 4294967296 * asm32 true (bs.drop 4)
  else 4294967296 * asm32 false (bs.take 4) + asm32 false (bs.drop 4)

def p_u8 (s : pstate) : Except parse_error (Nat × pstate) :=
  pbind (p_bytes 1 s) fun bs s1 => Except.ok (bs.getD 0 0 % 256, s1)

def p_u16 (e : Bool) (s : pstate) : Except parse_error (Nat × pstate) :=
  pbind (p_bytes 2 s) fun bs s1 => Except.ok (asm16 e bs, s1)

def p_u32 (e : Bool) (s : pstate) : Except parse_error (Nat × pstate) :=
  pbind (p_bytes 4 s) fun bs s1 => Except.ok (asm32 e bs, s1)

def p_u64 (e : Bool) (s : pstate) : Except parse_error (Nat × pstate) :=
  pbind (p_bytes 8 s) fun bs s1 => Except.ok (asm64 e bs, s1)

/-- Decode one 80-byte section record (spec section 3). -/
def p_section (e : Bool) (s : pstate) :
    Except parse_error (mach_section_64_t × pstate) :=
  pbind (p_bytes 16 s) fun sectname s =>
  pbind (p_bytes 16 s) fun segname s =>
  pbind (p_u64 e s) fun addr s =>
  pbind (p_u64 e s) fun size s =>
  pbind (p_u32 e s) fun offset s =>
  pbind (p_u32 e s) fun align s =>
  pbind (p_u32 e s) fun reloff s =>
  pbind (p_u32 e s) fun nreloc s =>
  pbind (p_u32 e s) fun flags s =>
  pbind (p_u32 e s) fun reserved1 s =>
  pbind (p_u32 e s) fun reserved2 s =>
  pbind (p_u32 e s) fun reserved3 s =>
  Except.ok ({ sectname := sectname, segname := segname, addr := addr,
               size := size, offset := offset, align := align, reloff := reloff,
               nreloc := nreloc, flags := flags, reserved1 := reserved1,
               reserved2 := reserved2, reserved3 := reserved3 }, s)

/-- Decode `n` consecutive section records. -/
def p_sections (e : Bool) :
    Nat → pstate → Except parse_error (List mach_section_64_t × pstate)
  | 0, s => Except.ok ([], s)
  | n + 1, s =>
      pbind (p_section e s) fun sec s =>
      pbind (p_sections e n s) fun rest s =>
      Except.ok (sec :: rest, s)

/-- Decode the fixed fields of an `LC_SEGMENT_64` payload and its trailing
section records (spec section 3). -/
def p_seg_payload (e : Bool) (s : pstate) :
    Except parse_error (mach_segment_command_64_t × pstate) :=
  pbind (p_bytes 16 s) fun segname s =>
  pbind (p_u64 e s) fun vmaddr s =>
  pbind (p_u64 e s) fun vmsize s =>
  pbind (p_u64 e s) fun fileoff s =>
  pbind (p_u64 e s) fun filesize s =>
  pbind (p_u32 e s) fun maxprot s =>
  pbind (p_u32 e s) fun initprot s =>
  pbind (p_u32 e s) fun nsects s =>
  pbind (p_u32 e s) fun flags s =>
  pbind (p_sections e nsects s) fun sections s =>
  Except.ok ({ segname := segname, vmaddr := vmaddr, vmsize := vmsize,
               fileoff := fileoff, filesize := filesize, maxprot := maxprot,
               initprot := initprot, nsects := nsects, flags := flags,
               sections := sections }, s)

/-- The family-specific decoding of one command (spec section 4.5):
segments and the symbol table are decoded, other kinds are retained raw. -/
inductive cmd_payload_t where
  | segment64 (seg : mach_segment_command_64_t)
  | symtab (symoff nsyms stroff strsize : Nat)
  | other
deriving DecidableEq, Repr

/-- Decode one load command at the running cursor: read the 8-byte prefix,
validate `cmdsize ≥ 8` and `cursor + cmdsize ≤ limit` (spec section 4.4),
decode the family payload, require the payload to stay within `cmdsize`
(spec section 4.5), and skip to the start of the next command. -/
def p_command (e : Bool) (limit : Nat) (s0 : pstate) :
    Except parse_error ((macho_cmd_desc_t × cmd_payload_t) × pstate) :=
  pbind (p_u32 e s0) fun cmd s1 =>
  pbind (p_u32 e s1) fun cmdsize s2 =>
  if cmdsize < 8 then Except.error parse_error.MalformedLoadCommand
  else if limit < s0.off + cmdsize then Except.error parse_error.MalformedLoadCommand
  else if cmd = LC_SEGMENT_64 then
    pbind (p_seg_payload e s2) fun seg s3 =>
    pbind (p_check (s3.off ≤ s0.off + cmdsize) parse_error.Truncated s3) fun _ s3 =>
    pbind (p_bytes (s0.off + cmdsize - s3.off) s3) fun _ s4 =>
    Except.ok (({ cmd := cmd, cmdsize := cmdsize, off := s0.off },
                cmd_payload_t.segment64 seg), s4)
  else if cmd = LC_SYMTAB then
    pbind (p_u32 e s2) fun symoff s3 =>
    pbind (p_u32 e s3) fun nsyms s4 =>
    pbind (p_u32 e s4) fun stroff s5 =>
    pbind (p_u32 e s5) fun strsize s6 =>
    pbind (p_check (s6.off ≤ s0.off + cmdsize) parse_error.Truncated s6) fun _ s6 =>
    pbind (p_bytes (s0.off + cmdsize - s6.off) s6) fun _ s7 =>
    Except.ok (({ cmd := cmd, cmdsize := cmdsize, off := s0.off },
                cmd_payload_t.symtab symoff nsyms stroff strsize), s7)
  else
    pbind (p_bytes (cmdsize - 8) s2) fun _ s3 =>
    Except.ok (({ cmd := cmd, cmdsize := cmdsize, off := s0.off },
                cmd_payload_t.other), s3)

/-- Decode `n` consecutive load commands. -/
def p_commands (e : Bool) (limit : Nat) :
    Nat → pstate → Except parse_error (List (macho_cmd_desc_t × cmd_payload_t) × pstate)
  | 0, s => Except.ok ([], s)
  | n + 1, s =>
      pbind (p_command e limit s) fun c s =>
      pbind (p_commands e limit n s) fun rest s =>
      Except.ok (c :: rest, s)

/-- Decode one 16-byte `nlist_64` record (spec section 6). -/
def p_nlist (e : Bool) (s : pstate) : Except parse_error (nlist_64 × pstate) :=
  pbind (p_u32 e s) fun n_strx s =>
  pbind (p_u8 s) fun n_type s =>
  pbind (p_u8 s) fun n_sect s =>
  pbind (p_u16 e s) fun n_desc s =>
  pbind (p_u64 e s) fun n_value s =>
  Except.ok ({ n_strx := n_strx, n_type := n_type, n_sect := n_sect,
               n_desc := n_desc, n_value := n_value }, s)

/-- Decode `n` consecutive `nlist_64` records. -/
def p_nlists (e : Bool) :
    Nat → pstate → Except parse_error (List nlist_64 × pstate)
  | 0, s => Except.ok ([], s)
  | n + 1, s =>
      pbind (p_nlist e s) fun x s =>
      pbind (p_nlists e n s) fun rest s =>
      Except.ok (x :: rest, s)

/-- The C-string stored in `blob` at byte offset `idx`: the bytes up to the
first NUL (spec section 4.6). -/
def cstring_at (blob : List Nat) (idx : Nat) : List Nat :=
  (blob.drop idx).takeWhile (fun b => b != 0)

/-- Modelled from the spec: the top-level thin 64-bit decode path (spec
sections 4.2 to 4.7; `mach_header_load` and the drivers around it are only
declared under src/).  The magic is read as a raw little-endian `u32`:
`MACH_MAGIC_64` means a little-endian file, `MACH_CIGAM_64` a big-endian
file, the 32-bit magics are `UnsupportedFormat` (spec section 7), the fat
magics belong to the separate universal path (`parse_fat_archs`), and
anything else is `BadMagic`.  All multi-byte reads then honour the chosen
endianness; the command walk, segment collection and symbol-table load
follow spec sections 4.4 to 4.6.  The endianness decision itself: magic
`MACH_MAGIC_64` read raw means a little-endian file, `MACH_CIGAM_64` a
big-endian one; 32-bit magics are declined as `UnsupportedFormat`, the fat
magics belong to the universal path, and anything else is `BadMagic`. -/
def p_endian (rawmagic : Nat) (s : pstate) : Except parse_error (Bool × pstate) :=
  if rawmagic = MACH_MAGIC_64 then Except.ok (true, s)
  else if rawmagic = MACH_CIGAM_64 then Except.ok (false, s)
  else if rawmagic = MACH_MAGIC_32 then Except.error parse_error.UnsupportedFormat
  else if rawmagic = MACH_CIGAM_32 then Except.error parse_error.UnsupportedFormat
  else if rawmagic = MACH_MAGIC_UNIVERSAL then Except.error parse_error.UnsupportedFormat
  else if rawmagic = MACH_CIGAM_UNIVERSAL then Except.error parse_error.UnsupportedFormat
  else Except.error parse_error.BadMagic

def parse_macho (file : List Nat) : Except parse_error macho_t :=
  let s0 : pstate := { rem := file, off := 0 }
  pbind (p_u32 true s0) fun rawmagic _ =>
  pbind (p_endian rawmagic s0) fun e _ =>
  pbind (p_u32 e s0) fun magic s1 =>
  pbind (p_u32 e s1) fun cputype s2 =>
  pbind (p_u32 e s2) fun cpusubtype s3 =>
  pbind (p_u32 e s3) fun filetype s4 =>
  pbind (p_u32 e s4) fun ncmds s5 =>
  pbind (p_u32 e s5) fun socmds s6 =>
  pbind (p_u32 e s6) fun flags s7 =>
  pbind (p_u32 e s7) fun reserved s8 =>
  pbind (p_commands e (32 + socmds) ncmds s8) fun cmds s9 =>
  pbind (p_check (s9.off = 32 + socmds) parse_error.MalformedLoadCommand s9) fun _ s9 =>
  pbind (match cmds.findSome? (fun pc =>
           match pc.2 with
           | cmd_payload_t.symtab a b c d => some (a, b, c, d)
           | _ => none) with
         | none => Except.ok (([] : List macho_symbol_t), s9)
         | some (symoff, nsyms, stroff, strsize) =>
             pbind (p_check (symoff + 16 * nsyms ≤ file.length)
                 parse_error.Truncated s9) fun _ s9 =>
             pbind (p_check (stroff + strsize ≤ file.length)
                 parse_error.Truncated s9) fun _ _ =>
             pbind (p_nlists e nsyms { rem := file.drop symoff, off := symoff })
               fun nl send =>
             Except.ok (nl.map (fun n =>
               { name := cstring_at ((file.drop stroff).take strsize) n.n_strx,
                 sym := n }), send))
    fun symbols _ =>
  Except.ok { header := { magic := magic, cputype := cputype,
                          cpusubtype := cpusubtype, filetype := filetype,
                          ncmds := ncmds, sizeofcmds := socmds,
                          flags := flags, reserved := reserved },
              commands := cmds.map Prod.fst,
              segments := cmds.filterMap (fun pc =>
                match pc.2 with
                | cmd_payload_t.segment64 seg => some seg
                | _ => none),
              symbols := symbols }

/-- Decode one 20-byte fat arch record (spec section 3). -/
def p_fat_arch (e : Bool) (s : pstate) : Except parse_error (fat_arch × pstate) :=
  pbind (p_u32 e s) fun cputype s =>
  pbind (p_u32 e s) fun cpusubtype s =>
  pbind (p_u32 e s) fun offset s =>
  pbind (p_u32 e s) fun size s =>
  pbind (p_u32 e s) fun align s =>
  Except.ok ({ cputype := cputype, cpusubtype := cpusubtype, offset := offset,
               size := size, align := align }, s)

/-- Decode `n` consecutive fat arch records. -/
def p_fat_archs (e : Bool) :
    Nat → pstate → Except parse_error (List fat_arch × pstate)
  | 0, s => Except.ok ([], s)
  | n + 1, s =>
      pbind (p_fat_arch e s) fun a s =>
      pbind (p_fat_archs e n s) fun rest s =>
      Except.ok (a :: rest, s)

/-- Modelled from the spec: the universal (FAT) header path
(`mach_universal_load` is only declared under src/).  Spec section 4.2:
first bytes `CA FE BA BE` mean big-endian arch records, `BE BA FE CA`
little-endian ones; the records are decoded at that endianness (spec
sections 3 and 4.3). -/
def p_fat_endian (rawmagic : Nat) (s : pstate) : Except parse_error (Bool × pstate) :=
  if rawmagic = MACH_MAGIC_UNIVERSAL then Except.ok (true, s)
  else if rawmagic = MACH_CIGAM_UNIVERSAL then Except.ok (false, s)
  else Except.error parse_error.BadMagic

def parse_fat_archs (file : List Nat) : Except parse_error (List fat_arch) :=
  let s0 : pstate := { rem := file, off := 0 }
  pbind (p_u32 true s0) fun rawmagic s1 =>
  pbind (p_fat_endian rawmagic s1) fun e s1 =>
  pbind (p_u32 e s1) fun nfat s2 =>
  pbind (p_fat_archs e nfat s2) fun archs _ =>
  Except.ok archs

/- ----------------------------------------------------------------- -/
/- C7: the decoded records an abstract file should produce.          -/
/- ----------------------------------------------------------------- -/

/-- Command descriptors of an abstract file, in stream order, starting at
file offset `off`. -/
def expected_descs : List file_cmd_t → Nat → List macho_cmd_desc_t
  | [], _ => []
  | c :: rest, off =>
      { cmd := file_cmd_id c, cmdsize := file_cmd_size c, off := off } ::
        expected_descs rest (off + file_cmd_size c)

/-- Whether an abstract file carries a symbol-table command. -/
def has_symtab (cmds : List file_cmd_t) : Bool :=
  cmds.any (fun c => match c with | file_cmd_t.symtab => true | _ => false)

/-- The decoded records a well-formed abstract file must parse to: its
header (magic normalized to `MACH_MAGIC_64`), its command descriptors, its
segments in command order, and its symbols with names resolved from the
string blob (present exactly when a symbol-table command is). -/
def expected_macho (f : macho_file_t) : macho_t :=
  { header := { magic := MACH_MAGIC_64, cputype := f.cputype,
                cpusubtype := f.cpusubtype, filetype := f.filetype,
                ncmds := f.cmds.length, sizeofcmds := sizeofcmds_of f.cmds,
                flags := f.flags, reserved := f.reserved },
    commands := expected_descs f.cmds 32,
    segments := f.cmds.filterMap (fun c =>
      match c with
      | file_cmd_t.segment64 seg => some seg
      | _ => none),
    symbols := if has_symtab f.cmds then
        f.syms.map (fun n => { name := cstring_at f.strtab n.n_strx, sym := n })
      else [] }

def expected_payload (symoff nsyms stroff strsize : Nat) : file_cmd_t → cmd_payload_t
  | file_cmd_t.segment64 seg => cmd_payload_t.segment64 seg
  | file_cmd_t.symtab => cmd_payload_t.symtab symoff nsyms stroff strsize
  | file_cmd_t.other _ _ => cmd_payload_t.other

def expected_cmds (symoff nsyms stroff strsize : Nat) :
    List file_cmd_t → Nat → List (macho_cmd_desc_t × cmd_payload_t)
  | [], _ => []
  | c :: rest, off =>
      ({ cmd := file_cmd_id c, cmdsize := file_cmd_size c, off := off },
        expected_payload symoff nsyms stroff strsize c) ::
        expected_cmds symoff nsyms stroff strsize rest (off + file_cmd_size c)

def demo_file : macho_file_t :=
  { cputype := 0x0100000C, cpusubtype := 0, filetype := 2, flags := 0x00200085,
    reserved := 0,
    cmds := [file_cmd_t.segment64
               { segname := [95, 95, 84, 69, 88, 84, 0, 0, 0, 0, 0, 0, 0, 0, 0, 0],
                 vmaddr := 4294967296, vmsize := 65536, fileoff := 0, filesize := 65536,
                 maxprot := 5, initprot := 5, nsects := 1, flags := 0,
                 sections := [{ sectname := [95, 95, 116, 101, 120, 116, 0, 0, 0, 0, 0, 0, 0, 0, 0, 0],
                                segname := [95, 95, 84, 69, 88, 84, 0, 0, 0, 0, 0, 0, 0, 0, 0, 0],
                                addr := 4294983680, size := 100, offset := 16384,
                                align := 2, reloff := 0, nreloc := 0, flags := 2147484672,
                                reserved1 := 0, reserved2 := 0, reserved3 := 0 }] },
             file_cmd_t.symtab,
             file_cmd_t.other 42 [1, 2, 3, 4, 5, 6, 7, 8]],
    syms := [{ n_strx := 1, n_type := 15, n_sect := 1, n_desc := 0, n_value := 4294983680 },
             { n_strx := 7, n_type := 1, n_sect := 0, n_desc := 256, n_value := 0 }],
    strtab := [0, 95, 109, 97, 105, 110, 0, 100, 121, 108, 100, 0] }

def demo_arch : fat_arch :=
  { cputype := 0x0100000C, cpusubtype := 0, offset := 16384, size := 1000, align := 14 }

/- ----------------------------------------------------------------- -/
/- Theorems.                                                         -/
/- ----------------------------------------------------------------- -/

@[simp] theorem pbind_ok {α β : Type} (a : α) (s : pstate)
    (f : α → pstate → Except parse_error β) :
    pbind (Except.ok (a, s)) f = f a s := rfl

@[simp] theorem pbind_error {α β : Type} (err : parse_error)
    (f : α → pstate → Except parse_error β) :
    pbind (Except.error err) f = (Except.error err : Except parse_error β) := rfl

theorem walk_aux_spec (mem : Nat → Nat) (limit : Nat) : ∀ (n cursor : Nat),
    ((¬ ∃ i < n, walk_step_bad mem limit (walk_cursor mem cursor i)) ∧
      mach_command_walk_aux mem limit n cursor =
        Except.ok
          ((List.range n).map (fun i => capture_command mem (walk_cursor mem cursor i)),
            walk_cursor mem cursor n)) ∨
    ((∃ i < n, walk_step_bad mem limit (walk_cursor mem cursor i)) ∧
      mach_command_walk_aux mem limit n cursor =
        Except.error parse_error.MalformedLoadCommand) := by
  intro n
  induction n with
  | zero =>
      intro cursor
      left
      constructor
      · rintro ⟨i, hi, _⟩; omega
      · simp [mach_command_walk_aux, walk_cursor]
  | succ n ih =>
      intro cursor
      by_cases hbad : walk_step_bad mem limit cursor
      · right
        refine ⟨⟨0, Nat.succ_pos n, hbad⟩, ?_⟩
        unfold mach_command_walk_aux
        rcases hbad with h8 | hover
        · simp [h8]
        · by_cases h8 : read_u32 mem (cursor + 4) < 8
          · simp [h8]
          · simp [h8, hover]
      · have h8 : ¬ read_u32 mem (cursor + 4) < 8 := fun h => hbad (Or.inl h)
        have hover : ¬ limit < cursor + read_u32 mem (cursor + 4) :=
          fun h => hbad (Or.inr h)
        have hstep : ∀ i, walk_cursor mem cursor (i + 1) =
            walk_cursor mem (cursor + read_u32 mem (cursor + 4)) i :=
          fun i => rfl
        rcases ih (cursor + read_u32 mem (cursor + 4)) with ⟨hnone, hok⟩ | ⟨hex, herr⟩
        · left
          constructor
          · rintro ⟨i, hi, hb⟩
            match i with
            | 0 => exact hbad hb
            | j + 1 =>
                exact hnone ⟨j, by omega, by rw [← hstep j]; exact hb⟩
          · unfold mach_command_walk_aux
            simp only [h8, if_false, hover]
            rw [hok]
            simp only [List.range_succ_eq_map, List.map_cons, List.map_map]
            constructor
        · right
          constructor
          · rcases hex with ⟨i, hi, hb⟩
            exact ⟨i + 1, by omega, by rw [hstep i]; exact hb⟩
          · unfold mach_command_walk_aux
            simp only [h8, if_false, hover]
            rw [herr]

theorem walk_aux_sum (mem : Nat → Nat) (limit : Nat) :
    ∀ (n cursor : Nat) (cmds : List mach_command_info_t) (fin : Nat),
      mach_command_walk_aux mem limit n cursor = Except.ok (cmds, fin) →
      fin = cursor + (cmds.map (fun c => c.lc.cmdsize)).sum ∧ cmds.length = n := by
  intro n
  induction n with
  | zero =>
      intro cursor cmds fin h
      unfold mach_command_walk_aux at h
      injection h with h
      injection h with h1 h2
      subst h1; subst h2
      simp
  | succ n ih =>
      intro cursor cmds fin h
      unfold mach_command_walk_aux at h
      by_cases h8 : read_u32 mem (cursor + 4) < 8
      · simp [h8] at h
      · by_cases hover : limit < cursor + read_u32 mem (cursor + 4)
        · simp [h8, hover] at h
        · simp only [h8, if_false, hover] at h
          revert h
          cases hrec : mach_command_walk_aux mem limit n
              (cursor + read_u32 mem (cursor + 4)) with
          | error e => intro h; exact absurd h (by simp)
          | ok p =>
              intro h
              obtain ⟨rest, f⟩ := p
              injection h with h
              injection h with h1 h2
              subst h1; subst h2
              obtain ⟨hsum, hlen⟩ := ih _ rest f hrec
              constructor
              · simp only [List.map_cons, List.sum_cons, capture_command]
                omega
              · simp [hlen]

/- ----------------------------------------------------------------- -/
/- Claim theorems: macho_read_magic (C1, C2, C9, C10).               -/
/- ----------------------------------------------------------------- -/

/-- Claim C1: `macho_read_magic(buf, o)` should return the 32-bit value
formed from the 4 little-endian bytes of `buf` at offset `o`.  The code
does not: at the buffer holding exactly the bytes `CF FA ED FE` and offset
0 the specified result is `0xFEEDFACF`, yet the function terminates the
process instead of returning it, because the defective `memcpy` leaves the
local `magic` at 0. -/
theorem read_magic_defect :
    macho_read_magic [0xcf, 0xfa, 0xed, 0xfe] 0 = ReadMagicResult.exited ∧
    read_le32 [0xcf, 0xfa, 0xed, 0xfe] 0 = 0xfeedfacf := by
  exact ⟨rfl, by decide⟩

/-- Claim C2: parse failures are to be returned to the caller as error
results, with no operation terminating the process.  The magic-read
operation in src/src/macho/macho.c violates this: evaluated on a concrete
buffer it takes the `exit (0)` branch, terminating the process rather than
surfacing an error result to the caller. -/
theorem read_magic_terminates_process :
    macho_read_magic [0xca, 0xfe, 0xba, 0xbe] 0 = ReadMagicResult.exited := by
  rfl

/-- Claim C9: the value `macho_read_magic` produces does not depend on the
offset argument at all — the parameter `offset` is never used in the body
of the function, so any two offsets give the same outcome on the same
buffer. -/
theorem read_magic_offset_independent (buf : List Nat) (o1 o2 : Nat) :
    macho_read_magic buf o1 = macho_read_magic buf o2 := rfl

/-- Claim C10: `macho_read_magic` takes the error branch (print and
`exit (0)`, never returning) exactly when the magic value it computed is
zero, and it never returns the value 0 normally. -/
theorem read_magic_error_branch_iff_zero (buf : List Nat) (offset : Nat) :
    (macho_read_magic buf offset = ReadMagicResult.exited ↔
      macho_read_magic_memcpy buf offset = 0) ∧
    macho_read_magic buf offset ≠ ReadMagicResult.value 0 := by
  refine ⟨⟨fun _ => rfl, fun _ => rfl⟩, ?_⟩
  simp [macho_read_magic, macho_read_magic_memcpy]

theorem read_magic_error_branch_witness :
    macho_read_magic [0xfe, 0xed, 0xfa, 0xcf] 7 = ReadMagicResult.exited :=
  (read_magic_error_branch_iff_zero [0xfe, 0xed, 0xfa, 0xcf] 7).1.mpr rfl

/- ----------------------------------------------------------------- -/
/- Claim theorem: recognized constants (C8).                         -/
/- ----------------------------------------------------------------- -/

/-- Claim C8: the recognized constants have exactly the spec's values:
filetypes OBJECT=1, EXECUTE=2, DYLIB=6, KEXT_BUNDLE=0xB; platforms
numbered 1 through 10 (MACOS=1 … DRIVERKIT=10); build tools CLANG=1,
SWIFT=2, LD=3; and CPU_TYPE_ARM64 = CPU_TYPE_ARM | CPU_ARCH_ABI64
= 0x0100000C. -/
theorem recognized_constants :
    MACH_TYPE_OBJECT = 1 ∧ MACH_TYPE_EXECUTE = 2 ∧ MACH_TYPE_DYLIB = 6 ∧
    MACH_TYPE_KEXT_BUNDLE = 0xb ∧
    PLATFORM_MACOS = 1 ∧ PLATFORM_IOS = 2 ∧ PLATFORM_TVOS = 3 ∧
    PLATFORM_WATCHOS = 4 ∧ PLATFORM_BRIDGEOS = 5 ∧ PLATFORM_MACCATALYST = 6 ∧
    PLATFORM_IOSSIMULATOR = 7 ∧ PLATFORM_TVOSSIMULATOR = 8 ∧
    PLATFORM_WATCHOSSIMULATOR = 9 ∧ PLATFORM_DRIVERKIT = 10 ∧
    TOOL_CLANG = 1 ∧ TOOL_SWIFT = 2 ∧ TOOL_LD = 3 ∧
    CPU_TYPE_ARM64 = (CPU_TYPE_ARM ||| CPU_ARCH_ABI64) ∧
    CPU_TYPE_ARM64 = 0x0100000C := by
  decide

/- ----------------------------------------------------------------- -/
/- Claim theorems: the load-command walker (C3, C4).                 -/
/- ----------------------------------------------------------------- -/

/-- Claim C3: for every command list produced by a successful walk of the
load-command stream, the sum of `cmdsize` over all descriptors equals
`header.sizeofcmds` and the number of descriptors equals `header.ncmds`. -/
theorem macho_commands_invariant (mem : Nat → Nat) (base sizeofcmds ncmds : Nat)
    (cmds : List mach_command_info_t)
    (h : mach_command_walk mem base sizeofcmds ncmds = Except.ok cmds) :
    (cmds.map (fun c => c.lc.cmdsize)).sum = sizeofcmds ∧ cmds.length = ncmds := by
  unfold mach_command_walk at h
  revert h
  cases haux : mach_command_walk_aux mem (base + sizeofcmds) ncmds base with
  | error e => intro h; exact absurd h (by simp)
  | ok p =>
      obtain ⟨l, fin⟩ := p
      intro h
      by_cases hfin : fin = base + sizeofcmds
      · simp only [hfin, if_true] at h
        injection h with h
        subst h
        obtain ⟨hsum, hlen⟩ := walk_aux_sum mem (base + sizeofcmds) ncmds base l fin haux
        exact ⟨by omega, hlen⟩
      · simp [hfin] at h

theorem macho_commands_invariant_witness :
    (([({ lc := { cmd := 25, cmdsize := 8 }, type := 25, off := 0,
          raw := [25, 0, 0, 0, 8, 0, 0, 0] } : mach_command_info_t)]).map
        (fun c => c.lc.cmdsize)).sum = 8 ∧
    ([({ lc := { cmd := 25, cmdsize := 8 }, type := 25, off := 0,
          raw := [25, 0, 0, 0, 8, 0, 0, 0] } : mach_command_info_t)]).length = 1 :=
  macho_commands_invariant (fun i => [25, 0, 0, 0, 8, 0, 0, 0].getD i 0) 0 8 1
    [{ lc := { cmd := 25, cmdsize := 8 }, type := 25, off := 0,
       raw := [25, 0, 0, 0, 8, 0, 0, 0] }] (by decide)

/-- Claim C4: for every input `(base_of_stream, sizeofcmds, ncmds)` over a
byte source, the walk fails with `MalformedLoadCommand` exactly when some
command along the run has `cmdsize < 8`, or the running cursor plus
`cmdsize` exceeds `base + sizeofcmds`, or after `ncmds` commands the
cursor does not equal `base + sizeofcmds`; otherwise it yields exactly
`ncmds` descriptors in stream order. -/
theorem walker_contract (mem : Nat → Nat) (base sizeofcmds ncmds : Nat) :
    (mach_command_walk mem base sizeofcmds ncmds =
        Except.error parse_error.MalformedLoadCommand ↔
      (∃ i < ncmds, walk_step_bad mem (base + sizeofcmds) (walk_cursor mem base i)) ∨
        ¬ walk_cursor mem base ncmds = base + sizeofcmds) ∧
    (mach_command_walk mem base sizeofcmds ncmds =
        Except.error parse_error.MalformedLoadCommand ∨
      mach_command_walk mem base sizeofcmds ncmds =
        Except.ok ((List.range ncmds).map
          (fun i => capture_command mem (walk_cursor mem base i)))) := by
  rcases walk_aux_spec mem (base + sizeofcmds) ncmds base with ⟨hnone, hok⟩ | ⟨hex, herr⟩
  · by_cases hfin : walk_cursor mem base ncmds = base + sizeofcmds
    · constructor
      · constructor
        · intro h
          unfold mach_command_walk at h
          rw [hok] at h
          simp [hfin] at h
        · intro h
          rcases h with h | h
          · exact absurd h hnone
          · exact absurd hfin h
      · right
        unfold mach_command_walk
        rw [hok]
        simp [hfin]
    · constructor
      · constructor
        · intro _; exact Or.inr hfin
        · intro _
          unfold mach_command_walk
          rw [hok]
          simp [hfin]
      · left
        unfold mach_command_walk
        rw [hok]
        simp [hfin]
  · constructor
    · constructor
      · intro _; exact Or.inl hex
      · intro _
        unfold mach_command_walk
        rw [herr]
    · left
      unfold mach_command_walk
      rw [herr]

theorem walker_contract_witness :
    mach_command_walk (fun i => [25, 0, 0, 0, 16, 0, 0, 0].getD i 0) 0 8 1 =
      Except.error parse_error.MalformedLoadCommand :=
  (walker_contract (fun i => [25, 0, 0, 0, 16, 0, 0, 0].getD i 0) 0 8 1).1.mpr
    (Or.inl ⟨0, by decide, by decide⟩)

/- ----------------------------------------------------------------- -/
/- Claim theorem: header kind classification (C5).                   -/
/- ----------------------------------------------------------------- -/

theorem read_le32_four (b0 b1 b2 b3 : Nat)
    (h0 : b0 < 256) (h1 : b1 < 256) (h2 : b2 < 256) (h3 : b3 < 256) :
    read_le32 [b0, b1, b2, b3] 0 = b0 + 256 * b1 + 65536 * b2 + 16777216 * b3 := by
  simp [read_le32, Nat.mod_eq_of_lt, h0, h1, h2, h3]

/-- Claim C5: inspecting the first 4 bytes classifies the header kind as
exactly one of Thin64 (bytes `CF FA ED FE` or `FE ED FA CF`), Thin32
(`CE FA ED FE` or `FE ED FA CE`), Fat (`CA FE BA BE` or `BE BA FE CA`),
and Unknown for any other 4-byte value; an unrecognized magic fails with
`BadMagic`. -/
theorem header_kind_classification (b0 b1 b2 b3 : Nat)
    (h0 : b0 < 256) (h1 : b1 < 256) (h2 : b2 < 256) (h3 : b3 < 256) :
    (mach_header_verify b0 b1 b2 b3 = mach_header_type_t.MH_TYPE_MACHO64 ↔
      (b0 = 0xcf ∧ b1 = 0xfa ∧ b2 = 0xed ∧ b3 = 0xfe) ∨
      (b0 = 0xfe ∧ b1 = 0xed ∧ b2 = 0xfa ∧ b3 = 0xcf)) ∧
    (mach_header_verify b0 b1 b2 b3 = mach_header_type_t.MH_TYPE_MACHO32 ↔
      (b0 = 0xce ∧ b1 = 0xfa ∧ b2 = 0xed ∧ b3 = 0xfe) ∨
      (b0 = 0xfe ∧ b1 = 0xed ∧ b2 = 0xfa ∧ b3 = 0xce)) ∧
    (mach_header_verify b0 b1 b2 b3 = mach_header_type_t.MH_TYPE_FAT ↔
      (b0 = 0xca ∧ b1 = 0xfe ∧ b2 = 0xba ∧ b3 = 0xbe) ∨
      (b0 = 0xbe ∧ b1 = 0xba ∧ b2 = 0xfe ∧ b3 = 0xca)) ∧
    (mach_header_verify_checked b0 b1 b2 b3 = Except.error parse_error.BadMagic ↔
      mach_header_verify b0 b1 b2 b3 = mach_header_type_t.MH_TYPE_UNKNOWN) := by
  have hm := read_le32_four b0 b1 b2 b3 h0 h1 h2 h3
  refine ⟨?_, ?_, ?_, ?_⟩
  · unfold mach_header_verify
    rw [hm]
    simp only [MACH_MAGIC_64, MACH_CIGAM_64, MACH_MAGIC_32, MACH_CIGAM_32,
      MACH_MAGIC_UNIVERSAL, MACH_CIGAM_UNIVERSAL]
    split_ifs with ha hb hc hd he hf <;> simp <;> omega
  · unfold mach_header_verify
    rw [hm]
    simp only [MACH_MAGIC_64, MACH_CIGAM_64, MACH_MAGIC_32, MACH_CIGAM_32,
      MACH_MAGIC_UNIVERSAL, MACH_CIGAM_UNIVERSAL]
    split_ifs with ha hb hc hd he hf <;> simp <;> omega
  · unfold mach_header_verify
    rw [hm]
    simp only [MACH_MAGIC_64, MACH_CIGAM_64, MACH_MAGIC_32, MACH_CIGAM_32,
      MACH_MAGIC_UNIVERSAL, MACH_CIGAM_UNIVERSAL]
    split_ifs with ha hb hc hd he hf <;> simp <;> omega
  · unfold mach_header_verify_checked
    cases hk : mach_header_verify b0 b1 b2 b3 <;> simp [hk]

theorem header_kind_classification_witness :
    mach_header_verify 0xcf 0xfa 0xed 0xfe = mach_header_type_t.MH_TYPE_MACHO64 :=
  (header_kind_classification 0xcf 0xfa 0xed 0xfe (by decide) (by decide)
      (by decide) (by decide)).1.mpr (Or.inl ⟨rfl, rfl, rfl, rfl⟩)

/- ----------------------------------------------------------------- -/
/- Claim theorem: shared version decoders (C6).                      -/
/- ----------------------------------------------------------------- -/

theorem shift_and_mask (v i j : Nat) :
    (v >>> i) &&& (2 ^ j - 1) = v / 2 ^ i % 2 ^ j := by
  rw [Nat.and_pow_two_sub_one_eq_mod, Nat.shiftRight_eq_div_pow]

/-- Claim C6: the shared version decoder renders a `u32` version `v` as
"X.Y.Z" where X is bits 31:16 of `v`, Y is bits 15:8 and Z is bits 7:0,
and renders a `u64` source version `w` as "A.B.C.D.E" where the fields
have bit widths 24/10/10/10/10 taken MSB-first. -/
theorem version_decoders_bit_ranges (v w : Nat)
    (hv : v < 4294967296) (hw : w < 18446744073709551616) :
    mach_lc_load_dylib_format_version v =
      toString (v / 65536) ++ "." ++ toString (v / 256 % 256) ++ "." ++
      toString (v % 256) ∧
    mach_lc_source_version_string w =
      toString (w / 1099511627776) ++ "." ++ toString (w / 1073741824 % 1024) ++ "." ++
      toString (w / 1048576 % 1024) ++ "." ++ toString (w / 1024 % 1024) ++ "." ++
      toString (w % 1024) := by
  constructor
  · unfold mach_lc_load_dylib_format_version
    have e1 : (v >>> 16) &&& 0xffff = v / 65536 := by
      have := shift_and_mask v 16 16
      norm_num at this
      rw [this, Nat.mod_eq_of_lt (by omega)]
    have e2 : (v >>> 8) &&& 0xff = v / 256 % 256 := by
      have := shift_and_mask v 8 8
      norm_num at this
      exact this
    have e3 : v &&& 0xff = v % 256 := by
      have := shift_and_mask v 0 8
      norm_num at this
      exact this
    rw [e1, e2, e3]
  · unfold mach_lc_source_version_string
    have e1 : (w >>> 40) &&& 0xffffff = w / 1099511627776 := by
      have := shift_and_mask w 40 24
      norm_num at this
      rw [this, Nat.mod_eq_of_lt (by omega)]
    have e2 : (w >>> 30) &&& 0x3ff = w / 1073741824 % 1024 := by
      have := shift_and_mask w 30 10
      norm_num at this
      exact this
    have e3 : (w >>> 20) &&& 0x3ff = w / 1048576 % 1024 := by
      have := shift_and_mask w 20 10
      norm_num at this
      exact this
    have e4 : (w >>> 10) &&& 0x3ff = w / 1024 % 1024 := by
      have := shift_and_mask w 10 10
      norm_num at this
      exact this
    have e5 : w &&& 0x3ff = w % 1024 := by
      have := shift_and_mask w 0 10
      norm_num at this
      exact this
    rw [e1, e2, e3, e4, e5]

theorem version_decoders_witness :
    mach_lc_load_dylib_format_version 66051 =
      toString (66051 / 65536) ++ "." ++ toString (66051 / 256 % 256) ++ "." ++
      toString (66051 % 256) :=
  (version_decoders_bit_ranges 66051 0 (by decide) (by decide)).1

theorem enc32_length (e : Bool) (v : Nat) : (enc32 e v).length = 4 := by
  cases e <;> simp [enc32]

theorem enc16_length (e : Bool) (v : Nat) : (enc16 e v).length = 2 := by
  cases e <;> simp [enc16]

theorem enc64_length (e : Bool) (v : Nat) : (enc64 e v).length = 8 := by
  cases e <;> simp [enc64, enc32]

theorem p_bytes_exact {n : Nat} (xs rest : List Nat) (off : Nat) (h : xs.length = n) :
    p_bytes n { rem := xs ++ rest, off := off } =
      Except.ok (xs, { rem := rest, off := off + n }) := by
  subst h
  have hlen : ¬ (xs ++ rest).length < xs.length := by simp [List.length_append]
  simp [p_bytes, hlen, List.take_left, List.drop_left]

theorem p_u32_enc (e : Bool) (v : Nat) (hv : v < 4294967296) (rest : List Nat) (off : Nat) :
    p_u32 e { rem := enc32 e v ++ rest, off := off } =
      Except.ok (v, { rem := rest, off := off + 4 }) := by
  unfold p_u32
  rw [p_bytes_exact (enc32 e v) rest off (enc32_length e v), pbind_ok]
  cases e <;> simp [asm32, enc32] <;> omega

theorem p_u16_enc (e : Bool) (v : Nat) (hv : v < 65536) (rest : List Nat) (off : Nat) :
    p_u16 e { rem := enc16 e v ++ rest, off := off } =
      Except.ok (v, { rem := rest, off := off + 2 }) := by
  unfold p_u16
  rw [p_bytes_exact (enc16 e v) rest off (enc16_length e v), pbind_ok]
  cases e <;> simp [asm16, enc16] <;> omega

theorem p_u8_enc (b : Nat) (hb : b < 256) (rest : List Nat) (off : Nat) :
    p_u8 { rem := b % 256 :: rest, off := off } =
      Except.ok (b, { rem := rest, off := off + 1 }) := by
  unfold p_u8
  rw [show (b % 256 :: rest) = [b % 256] ++ rest from rfl,
    p_bytes_exact [b % 256] rest off (show ([b % 256] : List Nat).length = 1 from rfl), pbind_ok]
  simp [Nat.mod_eq_of_lt hb]

theorem p_u64_enc (e : Bool) (v : Nat) (hv : v < 18446744073709551616)
    (rest : List Nat) (off : Nat) :
    p_u64 e { rem := enc64 e v ++ rest, off := off } =
      Except.ok (v, { rem := rest, off := off + 8 }) := by
  unfold p_u64
  rw [p_bytes_exact (enc64 e v) rest off (enc64_length e v), pbind_ok]
  cases e <;> simp [asm64, enc64, asm32, enc32] <;> omega

theorem p_section_enc (e : Bool) (s : mach_section_64_t) (h : section_wf s)
    (rest : List Nat) (off : Nat) :
    p_section e { rem := encode_section e s ++ rest, off := off } =
      Except.ok (s, { rem := rest, off := off + 80 }) := by
  obtain ⟨h1, h2, h3, h4, h5, h6, h7, h8, h9, h10, h11, h12⟩ := h
  simp only [p_section, encode_section, List.append_assoc, pbind_ok,
    p_bytes_exact, p_u32_enc, p_u64_enc,
    h1, h2, h3, h4, h5, h6, h7, h8, h9, h10, h11, h12]

theorem p_sections_enc (e : Bool) (secs : List mach_section_64_t)
    (h : ∀ sec ∈ secs, section_wf sec) (rest : List Nat) (off : Nat) :
    p_sections e secs.length
        { rem := (secs.map (encode_section e)).flatten ++ rest, off := off } =
      Except.ok (secs, { rem := rest, off := off + 80 * secs.length }) := by
  induction secs generalizing rest off with
  | nil => simp [p_sections]
  | cons sec secs ih =>
      simp only [List.map_cons, List.flatten_cons, List.length_cons, List.append_assoc]
      simp only [p_sections, pbind_ok, p_section_enc e sec (h sec (by simp)) _ off]
      rw [ih (fun s hs => h s (by simp [hs])) rest (off + 80)]
      simp only [pbind_ok]
      have harith : off + 80 + 80 * secs.length = off + 80 * (secs.length + 1) := by ring
      rw [harith]

theorem p_nlist_enc (e : Bool) (n : nlist_64) (h : nlist_wf n)
    (rest : List Nat) (off : Nat) :
    p_nlist e { rem := encode_nlist e n ++ rest, off := off } =
      Except.ok (n, { rem := rest, off := off + 16 }) := by
  obtain ⟨h1, h2, h3, h4, h5⟩ := h
  simp only [p_nlist, encode_nlist, List.append_assoc, List.cons_append,
    List.nil_append, pbind_ok, p_u32_enc, p_u16_enc, p_u64_enc, p_u8_enc,
    h1, h2, h3, h4, h5]

theorem p_nlists_enc (e : Bool) (ns : List nlist_64)
    (h : ∀ n ∈ ns, nlist_wf n) (rest : List Nat) (off : Nat) :
    p_nlists e ns.length
        { rem := (ns.map (encode_nlist e)).flatten ++ rest, off := off } =
      Except.ok (ns, { rem := rest, off := off + 16 * ns.length }) := by
  induction ns generalizing rest off with
  | nil => simp [p_nlists]
  | cons n ns ih =>
      simp only [List.map_cons, List.flatten_cons, List.length_cons, List.append_assoc]
      simp only [p_nlists, pbind_ok, p_nlist_enc e n (h n (by simp)) _ off]
      rw [ih (fun x hx => h x (by simp [hx])) rest (off + 16)]
      simp only [pbind_ok]
      have harith : off + 16 + 16 * ns.length = off + 16 * (ns.length + 1) := by ring
      rw [harith]


theorem p_fat_arch_enc (e : Bool) (a : fat_arch) (h : fat_arch_wf a)
    (rest : List Nat) (off : Nat) :
    p_fat_arch e { rem := encode_fat_arch e a ++ rest, off := off } =
      Except.ok (a, { rem := rest, off := off + 20 }) := by
  obtain ⟨h1, h2, h3, h4, h5⟩ := h
  simp only [p_fat_arch, encode_fat_arch, List.append_assoc, pbind_ok, p_u32_enc,
    h1, h2, h3, h4, h5]

theorem p_fat_archs_enc (e : Bool) (archs : List fat_arch)
    (h : ∀ a ∈ archs, fat_arch_wf a) (rest : List Nat) (off : Nat) :
    p_fat_archs e archs.length
        { rem := (archs.map (encode_fat_arch e)).flatten ++ rest, off := off } =
      Except.ok (archs, { rem := rest, off := off + 20 * archs.length }) := by
  induction archs generalizing rest off with
  | nil => simp [p_fat_archs]
  | cons a archs ih =>
      simp only [List.map_cons, List.flatten_cons, List.length_cons, List.append_assoc]
      simp only [p_fat_archs, pbind_ok]
      rw [p_fat_arch_enc e a (h a (by simp)) _ off]
      simp only [pbind_ok]
      rw [ih (fun x hx => h x (by simp [hx])) rest (off + 20)]
      simp only [pbind_ok]
      have harith : off + 20 + 20 * archs.length = off + 20 * (archs.length + 1) := by ring
      rw [harith]

theorem p_seg_payload_enc (e : Bool) (g : mach_segment_command_64_t)
    (h : segment_wf g) (hn : g.sections.length < 4294967296)
    (rest : List Nat) (off : Nat) :
    p_seg_payload e
        { rem := g.segname ++ (enc64 e g.vmaddr ++ (enc64 e g.vmsize ++
            (enc64 e g.fileoff ++ (enc64 e g.filesize ++ (enc32 e g.maxprot ++
            (enc32 e g.initprot ++ (enc32 e g.sections.length ++ (enc32 e g.flags ++
            ((g.sections.map (encode_section e)).flatten ++ rest))))))))),
          off := off } =
      Except.ok (g, { rem := rest, off := off + (64 + 80 * g.sections.length) }) := by
  obtain ⟨h1, h2, h3, h4, h5, h6, h7, h8, h9, h10⟩ := h
  simp only [p_seg_payload, pbind_ok, p_bytes_exact _ _ _ h1, p_u64_enc, p_u32_enc,
    h2, h3, h4, h5, h6, h7, h8, hn]
  rw [p_sections_enc e g.sections h10 rest _]
  simp only [pbind_ok]
  have hg : ({ segname := g.segname, vmaddr := g.vmaddr, vmsize := g.vmsize,
               fileoff := g.fileoff, filesize := g.filesize, maxprot := g.maxprot,
               initprot := g.initprot, nsects := g.sections.length, flags := g.flags,
               sections := g.sections } : mach_segment_command_64_t) = g := by
    cases g
    simp only at h9 ⊢
    rw [h9]
  rw [hg]
  have harith : off + 16 + 8 + 8 + 8 + 8 + 4 + 4 + 4 + 4 + 80 * g.sections.length =
      off + (64 + 80 * g.sections.length) := by ring
  rw [harith]

theorem p_bytes_zero (s : pstate) : p_bytes 0 s = Except.ok ([], s) := by
  cases s
  simp [p_bytes]

theorem p_command_enc (e : Bool) (c : file_cmd_t) (hc : file_cmd_wf c)
    (symoff nsyms stroff strsize : Nat)
    (hso : symoff < 4294967296) (hns : nsyms < 4294967296)
    (hst : stroff < 4294967296) (hss : strsize < 4294967296)
    (hsz : file_cmd_size c < 4294967296)
    (limit : Nat) (rest : List Nat) (off : Nat)
    (hlim : off + file_cmd_size c ≤ limit) :
    p_command e limit
        { rem := encode_cmd e symoff nsyms stroff strsize c ++ rest, off := off } =
      Except.ok (({ cmd := file_cmd_id c, cmdsize := file_cmd_size c, off := off },
                  expected_payload symoff nsyms stroff strsize c),
                 { rem := rest, off := off + file_cmd_size c }) := by
  have hseg32 : LC_SEGMENT_64 < 4294967296 := by decide
  have hsym32 : LC_SYMTAB < 4294967296 := by decide
  cases c with
  | segment64 seg =>
      simp only [file_cmd_size] at hsz hlim
      simp only [encode_cmd, file_cmd_size, file_cmd_id, expected_payload,
        List.append_assoc]
      simp only [p_command, pbind_ok, p_u32_enc _ _ hseg32, p_u32_enc _ _ hsz]
      rw [if_neg (by omega : ¬ 72 + 80 * seg.sections.length < 8),
        if_neg (by omega : ¬ limit < off + (72 + 80 * seg.sections.length)),
        if_true]
      rw [p_seg_payload_enc e seg hc (by omega) rest (off + 4 + 4)]
      simp only [pbind_ok, p_check]
      rw [if_pos (by omega :
        off + 4 + 4 + (64 + 80 * seg.sections.length) ≤
          off + (72 + 80 * seg.sections.length))]
      simp only [pbind_ok]
      have h0 : off + (72 + 80 * seg.sections.length) -
          (off + 4 + 4 + (64 + 80 * seg.sections.length)) = 0 := by omega
      rw [h0, p_bytes_zero]
      try simp only [pbind_ok]
      try rw [(by ring : off + 4 + 4 + (64 + 80 * seg.sections.length) =
          off + (72 + 80 * seg.sections.length))]
  | symtab =>
      simp only [file_cmd_size] at hsz hlim
      simp only [encode_cmd, file_cmd_size, file_cmd_id, expected_payload,
        List.append_assoc]
      simp only [p_command, pbind_ok, p_u32_enc _ _ hsym32,
        p_u32_enc _ _ (by omega : (24 : Nat) < 4294967296),
        p_u32_enc _ _ hso, p_u32_enc _ _ hns, p_u32_enc _ _ hst, p_u32_enc _ _ hss]
      rw [if_neg (by omega : ¬ (24 : Nat) < 8),
        if_neg (by omega : ¬ limit < off + 24),
        if_neg (by decide : ¬ LC_SYMTAB = LC_SEGMENT_64),
        if_true]
      simp only [pbind_ok, p_check]
      rw [if_pos (by omega : off + 4 + 4 + 4 + 4 + 4 + 4 ≤ off + 24)]
      simp only [pbind_ok]
      have h0 : off + 24 - (off + 4 + 4 + 4 + 4 + 4 + 4) = 0 := by omega
      rw [h0, p_bytes_zero]
      try simp only [pbind_ok]
      try rw [(by ring : off + 4 + 4 + 4 + 4 + 4 + 4 = off + 24)]
  | other cmd payload =>
      obtain ⟨hlt, hne1, hne2⟩ := hc
      simp only [file_cmd_size] at hsz hlim
      simp only [encode_cmd, file_cmd_size, file_cmd_id, expected_payload,
        List.append_assoc]
      simp only [p_command, pbind_ok, p_u32_enc _ _ hlt, p_u32_enc _ _ hsz]
      rw [if_neg (by omega : ¬ 8 + payload.length < 8),
        if_neg (by omega : ¬ limit < off + (8 + payload.length)),
        if_neg hne1, if_neg hne2]
      have h0 : 8 + payload.length - 8 = payload.length := by omega
      rw [h0, p_bytes_exact payload rest (off + 4 + 4) rfl]
      try simp only [pbind_ok]
      try rw [(by ring : off + 4 + 4 + payload.length = off + (8 + payload.length))]

theorem sizeofcmds_cons (c : file_cmd_t) (cmds : List file_cmd_t) :
    sizeofcmds_of (c :: cmds) = file_cmd_size c + sizeofcmds_of cmds := by
  simp [sizeofcmds_of]

theorem p_commands_enc (e : Bool) (cmds : List file_cmd_t)
    (hwf : ∀ c ∈ cmds, file_cmd_wf c)
    (hszs : ∀ c ∈ cmds, file_cmd_size c < 4294967296)
    (symoff nsyms stroff strsize : Nat)
    (hso : symoff < 4294967296) (hns : nsyms < 4294967296)
    (hst : stroff < 4294967296) (hss : strsize < 4294967296)
    (limit : Nat) (rest : List Nat) (off : Nat)
    (hlim : off + sizeofcmds_of cmds ≤ limit) :
    p_commands e limit cmds.length
        { rem := (cmds.map (encode_cmd e symoff nsyms stroff strsize)).flatten ++ rest,
          off := off } =
      Except.ok (expected_cmds symoff nsyms stroff strsize cmds off,
                 { rem := rest, off := off + sizeofcmds_of cmds }) := by
  induction cmds generalizing rest off with
  | nil => simp [p_commands, expected_cmds, sizeofcmds_of]
  | cons c cmds ih =>
      have hcons := sizeofcmds_cons c cmds
      simp only [List.map_cons, List.flatten_cons, List.length_cons, List.append_assoc]
      simp only [p_commands, pbind_ok]
      rw [p_command_enc e c (hwf c (by simp)) symoff nsyms stroff strsize hso hns hst hss
        (hszs c (by simp)) limit _ off (by omega)]
      simp only [pbind_ok]
      rw [ih (fun x hx => hwf x (by simp [hx])) (fun x hx => hszs x (by simp [hx])) rest
        (off + file_cmd_size c) (by omega)]
      simp only [pbind_ok, expected_cmds]
      rw [(by omega : off + file_cmd_size c + sizeofcmds_of cmds =
        off + sizeofcmds_of (c :: cmds))]

theorem expected_cmds_fst (symoff nsyms stroff strsize : Nat) (cmds : List file_cmd_t) :
    ∀ off, (expected_cmds symoff nsyms stroff strsize cmds off).map Prod.fst =
      expected_descs cmds off := by
  induction cmds with
  | nil => intro off; simp [expected_cmds, expected_descs]
  | cons c cmds ih => intro off; simp [expected_cmds, expected_descs, ih]

theorem expected_cmds_segments (symoff nsyms stroff strsize : Nat)
    (cmds : List file_cmd_t) :
    ∀ off, (expected_cmds symoff nsyms stroff strsize cmds off).filterMap (fun pc =>
        match pc.2 with
        | cmd_payload_t.segment64 seg => some seg
        | _ => none) =
      cmds.filterMap (fun c => match c with
        | file_cmd_t.segment64 seg => some seg
        | _ => none) := by
  induction cmds with
  | nil => intro off; simp [expected_cmds]
  | cons c cmds ih =>
      intro off
      cases c <;> simp [expected_cmds, expected_payload, List.filterMap_cons, ih]

theorem expected_cmds_symtab (symoff nsyms stroff strsize : Nat)
    (cmds : List file_cmd_t) :
    ∀ off, (expected_cmds symoff nsyms stroff strsize cmds off).findSome? (fun pc =>
        match pc.2 with
        | cmd_payload_t.symtab a b c d => some (a, b, c, d)
        | _ => none) =
      (if has_symtab cmds then some (symoff, nsyms, stroff, strsize) else none) := by
  induction cmds with
  | nil => intro off; simp [expected_cmds, has_symtab]
  | cons c cmds ih =>
      intro off
      cases c <;>
        simp [expected_cmds, expected_payload, has_symtab, List.findSome?_cons, ih,
          List.any_cons]

theorem sum_map_const {α : Type} (l : List α) (c : Nat) :
    (l.map (fun _ => c)).sum = c * l.length := by
  induction l with
  | nil => simp
  | cons x l ih => simp [ih]; ring

theorem encode_section_length (e : Bool) (s : mach_section_64_t) (h : section_wf s) :
    (encode_section e s).length = 80 := by
  obtain ⟨h1, h2, _⟩ := h
  simp [encode_section, enc32_length, enc64_length, h1, h2]

theorem encode_nlist_length (e : Bool) (n : nlist_64) :
    (encode_nlist e n).length = 16 := by
  simp [encode_nlist, enc32_length, enc16_length, enc64_length]

theorem encode_cmd_length (e : Bool) (symoff nsyms stroff strsize : Nat)
    (c : file_cmd_t) (h : file_cmd_wf c) :
    (encode_cmd e symoff nsyms stroff strsize c).length = file_cmd_size c := by
  cases c with
  | segment64 seg =>
      obtain ⟨h1, h2, h3, h4, h5, h6, h7, h8, h9, h10⟩ := h
      have hsec : ((seg.sections.map (encode_section e)).flatten).length =
          80 * seg.sections.length := by
        rw [List.length_flatten, List.map_map]
        have hmc : seg.sections.map (List.length ∘ encode_section e) =
            seg.sections.map (fun _ => 80) :=
          List.map_congr_left (fun s hs => encode_section_length e s (h10 s hs))
        rw [hmc, sum_map_const]
        try ring
      simp [encode_cmd, file_cmd_size, enc32_length, enc64_length, h1, hsec]
      try omega
  | symtab =>
      simp [encode_cmd, file_cmd_size, enc32_length]
  | other cmd payload =>
      simp [encode_cmd, file_cmd_size, enc32_length]
      try omega

theorem nlist_area_length (e : Bool) (syms : List nlist_64) :
    ((syms.map (encode_nlist e)).flatten).length = 16 * syms.length := by
  rw [List.length_flatten, List.map_map]
  have hmc : syms.map (List.length ∘ encode_nlist e) = syms.map (fun _ => 16) :=
    List.map_congr_left (fun n _ => encode_nlist_length e n)
  rw [hmc, sum_map_const]
  try ring

theorem cmd_area_length (e : Bool) (symoff nsyms stroff strsize : Nat)
    (cmds : List file_cmd_t) (h : ∀ c ∈ cmds, file_cmd_wf c) :
    ((cmds.map (encode_cmd e symoff nsyms stroff strsize)).flatten).length =
      sizeofcmds_of cmds := by
  rw [List.length_flatten, List.map_map]
  have hmc : cmds.map (List.length ∘ encode_cmd e symoff nsyms stroff strsize) =
      cmds.map file_cmd_size :=
    List.map_congr_left (fun c hc => encode_cmd_length e symoff nsyms stroff strsize c (h c hc))
  rw [hmc]
  rfl

theorem encode_macho_file_length (e : Bool) (f : macho_file_t)
    (h : ∀ c ∈ f.cmds, file_cmd_wf c) :
    (encode_macho_file e f).length =
      32 + sizeofcmds_of f.cmds + 16 * f.syms.length + f.strtab.length := by
  have hn : (f.syms.map (List.length ∘ encode_nlist e)).sum = 16 * f.syms.length := by
    have hmc : f.syms.map (List.length ∘ encode_nlist e) = f.syms.map (fun _ => 16) :=
      List.map_congr_left (fun n _ => encode_nlist_length e n)
    rw [hmc, sum_map_const]
    try ring
  have hcs : (f.cmds.map (List.length ∘ encode_cmd e (32 + sizeofcmds_of f.cmds)
      f.syms.length (32 + sizeofcmds_of f.cmds + 16 * f.syms.length)
      f.strtab.length)).sum = sizeofcmds_of f.cmds := by
    have hmc : f.cmds.map (List.length ∘ encode_cmd e (32 + sizeofcmds_of f.cmds)
        f.syms.length (32 + sizeofcmds_of f.cmds + 16 * f.syms.length) f.strtab.length) =
        f.cmds.map file_cmd_size :=
      List.map_congr_left (fun c hc => encode_cmd_length e _ _ _ _ c (h c hc))
    rw [hmc]
    rfl
  simp [encode_macho_file, List.length_append, enc32_length, hn, hcs]
  try omega

theorem p_endian_magic64 (s : pstate) :
    p_endian MACH_MAGIC_64 s = Except.ok (true, s) := rfl

theorem p_endian_cigam64 (s : pstate) :
    p_endian MACH_CIGAM_64 s = Except.ok (false, s) := rfl

theorem p_fat_endian_magic (s : pstate) :
    p_fat_endian MACH_MAGIC_UNIVERSAL s = Except.ok (true, s) := rfl

theorem p_fat_endian_cigam (s : pstate) :
    p_fat_endian MACH_CIGAM_UNIVERSAL s = Except.ok (false, s) := rfl

theorem p_u32_raw_cigam (rest : List Nat) (off : Nat) :
    p_u32 true { rem := enc32 false MACH_MAGIC_64 ++ rest, off := off } =
      Except.ok (MACH_CIGAM_64, { rem := rest, off := off + 4 }) := by
  have hb : enc32 false MACH_MAGIC_64 = enc32 true MACH_CIGAM_64 := by decide
  rw [hb, p_u32_enc true MACH_CIGAM_64 (by decide)]

theorem parse_encode (e : Bool) (f : macho_file_t) (h : macho_file_wf f) :
    parse_macho (encode_macho_file e f) = Except.ok (expected_macho f) := by
  obtain ⟨hcpu, hsub, hft, hfl, hres, hncmds, htotal, hcmdw, hsymw⟩ := h
  have hsoc : sizeofcmds_of f.cmds < 4294967296 := by omega
  have hsymoff32 : 32 + sizeofcmds_of f.cmds < 4294967296 := by omega
  have hnsyms32 : f.syms.length < 4294967296 := by omega
  have hstroff32 : 32 + sizeofcmds_of f.cmds + 16 * f.syms.length < 4294967296 := by omega
  have hstrsize32 : f.strtab.length < 4294967296 := by omega
  have hszs : ∀ c ∈ f.cmds, file_cmd_size c < 4294967296 := by
    intro c hc
    have hle : file_cmd_size c ≤ sizeofcmds_of f.cmds :=
      List.single_le_sum (fun _ _ => Nat.zero_le _) _ (List.mem_map_of_mem _ hc)
    omega
  have hflen := encode_macho_file_length e f hcmdw
  have hcs : (f.cmds.map (List.length ∘ encode_cmd e (32 + sizeofcmds_of f.cmds)
      f.syms.length (32 + sizeofcmds_of f.cmds + 16 * f.syms.length)
      f.strtab.length)).sum = sizeofcmds_of f.cmds := by
    have hmc : f.cmds.map (List.length ∘ encode_cmd e (32 + sizeofcmds_of f.cmds)
        f.syms.length (32 + sizeofcmds_of f.cmds + 16 * f.syms.length) f.strtab.length) =
        f.cmds.map file_cmd_size :=
      List.map_congr_left (fun c hc => encode_cmd_length e _ _ _ _ c (hcmdw c hc))
    rw [hmc]
    rfl
  have hnsum : (f.syms.map (List.length ∘ encode_nlist e)).sum = 16 * f.syms.length := by
    have hmc : f.syms.map (List.length ∘ encode_nlist e) = f.syms.map (fun _ => 16) :=
      List.map_congr_left (fun n _ => encode_nlist_length e n)
    rw [hmc, sum_map_const]
    try ring
  have hsplit : encode_macho_file e f =
      enc32 e MACH_MAGIC_64 ++ (enc32 e f.cputype ++ (enc32 e f.cpusubtype ++
      (enc32 e f.filetype ++ (enc32 e f.cmds.length ++
      (enc32 e (sizeofcmds_of f.cmds) ++ (enc32 e f.flags ++
      (enc32 e f.reserved ++
      ((f.cmds.map (encode_cmd e (32 + sizeofcmds_of f.cmds) f.syms.length
          (32 + sizeofcmds_of f.cmds + 16 * f.syms.length) f.strtab.length)).flatten ++
      (((f.syms.map (encode_nlist e)).flatten) ++ f.strtab))))))))) := by
    simp [encode_macho_file, List.append_assoc]
  have hdropsym : (encode_macho_file e f).drop (32 + sizeofcmds_of f.cmds) =
      (f.syms.map (encode_nlist e)).flatten ++ f.strtab := by
    have hgr : encode_macho_file e f =
        (enc32 e MACH_MAGIC_64 ++ enc32 e f.cputype ++ enc32 e f.cpusubtype ++
         enc32 e f.filetype ++ enc32 e f.cmds.length ++
         enc32 e (sizeofcmds_of f.cmds) ++ enc32 e f.flags ++ enc32 e f.reserved ++
         (f.cmds.map (encode_cmd e (32 + sizeofcmds_of f.cmds) f.syms.length
           (32 + sizeofcmds_of f.cmds + 16 * f.syms.length) f.strtab.length)).flatten) ++
        ((f.syms.map (encode_nlist e)).flatten ++ f.strtab) := by
      simp [encode_macho_file, List.append_assoc]
    rw [hgr]
    refine List.drop_left' ?_
    simp [List.length_append, enc32_length, hcs]
    try omega
  have hdropstr : (encode_macho_file e f).drop
      (32 + sizeofcmds_of f.cmds + 16 * f.syms.length) = f.strtab := by
    have hgr : encode_macho_file e f =
        (enc32 e MACH_MAGIC_64 ++ enc32 e f.cputype ++ enc32 e f.cpusubtype ++
         enc32 e f.filetype ++ enc32 e f.cmds.length ++
         enc32 e (sizeofcmds_of f.cmds) ++ enc32 e f.flags ++ enc32 e f.reserved ++
         (f.cmds.map (encode_cmd e (32 + sizeofcmds_of f.cmds) f.syms.length
           (32 + sizeofcmds_of f.cmds + 16 * f.syms.length) f.strtab.length)).flatten ++
         (f.syms.map (encode_nlist e)).flatten) ++ f.strtab := by
      simp [encode_macho_file, List.append_assoc]
    rw [hgr]
    refine List.drop_left' ?_
    simp [List.length_append, enc32_length, hcs, hnsum]
    try omega
  cases e with
  | true =>
      rw [hsplit]
      simp only [parse_macho]
      rw [p_u32_enc true MACH_MAGIC_64 (by decide)]
      simp only [pbind_ok]
      rw [p_endian_magic64]
      simp only [pbind_ok]
      rw [p_u32_enc true MACH_MAGIC_64 (by decide)]
      simp only [pbind_ok]
      rw [p_u32_enc true f.cputype hcpu]
      simp only [pbind_ok]
      rw [p_u32_enc true f.cpusubtype hsub]
      simp only [pbind_ok]
      rw [p_u32_enc true f.filetype hft]
      simp only [pbind_ok]
      rw [p_u32_enc true f.cmds.length hncmds]
      simp only [pbind_ok]
      rw [p_u32_enc true (sizeofcmds_of f.cmds) hsoc]
      simp only [pbind_ok]
      rw [p_u32_enc true f.flags hfl]
      simp only [pbind_ok]
      rw [p_u32_enc true f.reserved hres]
      simp only [pbind_ok]
      rw [(by norm_num : (0 : Nat) + 4 + 4 + 4 + 4 + 4 + 4 + 4 + 4 = 32)]
      rw [p_commands_enc true f.cmds hcmdw hszs (32 + sizeofcmds_of f.cmds) f.syms.length
        (32 + sizeofcmds_of f.cmds + 16 * f.syms.length) f.strtab.length hsymoff32 hnsyms32
        hstroff32 hstrsize32 (32 + sizeofcmds_of f.cmds)
        ((f.syms.map (encode_nlist true)).flatten ++ f.strtab) 32 (by omega)]
      simp only [pbind_ok]
      simp only [p_check, eq_self_iff_true, if_true, pbind_ok]
      rw [expected_cmds_symtab]
      cases hhs : has_symtab f.cmds with
      | false =>
          simp only [hhs, Bool.false_eq_true, if_false, pbind_ok]
          rw [expected_cmds_fst, expected_cmds_segments]
          simp [expected_macho, hhs]
      | true =>
          simp only [eq_self_iff_true, if_true, pbind_ok]
          rw [← hsplit]
          rw [if_pos (by rw [hflen]; try omega :
            32 + sizeofcmds_of f.cmds + 16 * f.syms.length ≤
              (encode_macho_file true f).length)]
          simp only [pbind_ok]
          rw [if_pos (by rw [hflen]; try omega :
            32 + sizeofcmds_of f.cmds + 16 * f.syms.length + f.strtab.length ≤
              (encode_macho_file true f).length)]
          simp only [pbind_ok]
          rw [hdropsym]
          rw [p_nlists_enc true f.syms hsymw f.strtab (32 + sizeofcmds_of f.cmds)]
          simp only [pbind_ok]
          rw [hdropstr]
          rw [expected_cmds_fst, expected_cmds_segments]
          simp [expected_macho, hhs]
  | false =>
      rw [hsplit]
      simp only [parse_macho]
      rw [p_u32_raw_cigam]
      simp only [pbind_ok]
      rw [p_endian_cigam64]
      simp only [pbind_ok]
      rw [p_u32_enc false MACH_MAGIC_64 (by decide)]
      simp only [pbind_ok]
      rw [p_u32_enc false f.cputype hcpu]
      simp only [pbind_ok]
      rw [p_u32_enc false f.cpusubtype hsub]
      simp only [pbind_ok]
      rw [p_u32_enc false f.filetype hft]
      simp only [pbind_ok]
      rw [p_u32_enc false f.cmds.length hncmds]
      simp only [pbind_ok]
      rw [p_u32_enc false (sizeofcmds_of f.cmds) hsoc]
      simp only [pbind_ok]
      rw [p_u32_enc false f.flags hfl]
      simp only [pbind_ok]
      rw [p_u32_enc false f.reserved hres]
      simp only [pbind_ok]
      rw [(by norm_num : (0 : Nat) + 4 + 4 + 4 + 4 + 4 + 4 + 4 + 4 = 32)]
      rw [p_commands_enc false f.cmds hcmdw hszs (32 + sizeofcmds_of f.cmds) f.syms.length
        (32 + sizeofcmds_of f.cmds + 16 * f.syms.length) f.strtab.length hsymoff32 hnsyms32
        hstroff32 hstrsize32 (32 + sizeofcmds_of f.cmds)
        ((f.syms.map (encode_nlist false)).flatten ++ f.strtab) 32 (by omega)]
      simp only [pbind_ok]
      simp only [p_check, eq_self_iff_true, if_true, pbind_ok]
      rw [expected_cmds_symtab]
      cases hhs : has_symtab f.cmds with
      | false =>
          simp only [hhs, Bool.false_eq_true, if_false, pbind_ok]
          rw [expected_cmds_fst, expected_cmds_segments]
          simp [expected_macho, hhs]
      | true =>
          simp only [eq_self_iff_true, if_true, pbind_ok]
          rw [← hsplit]
          rw [if_pos (by rw [hflen]; try omega :
            32 + sizeofcmds_of f.cmds + 16 * f.syms.length ≤
              (encode_macho_file false f).length)]
          simp only [pbind_ok]
          rw [if_pos (by rw [hflen]; try omega :
            32 + sizeofcmds_of f.cmds + 16 * f.syms.length + f.strtab.length ≤
              (encode_macho_file false f).length)]
          simp only [pbind_ok]
          rw [hdropsym]
          rw [p_nlists_enc false f.syms hsymw f.strtab (32 + sizeofcmds_of f.cmds)]
          simp only [pbind_ok]
          rw [hdropstr]
          rw [expected_cmds_fst, expected_cmds_segments]
          simp [expected_macho, hhs]

theorem p_u32_raw_fat_cigam (rest : List Nat) (off : Nat) :
    p_u32 true { rem := enc32 false MACH_MAGIC_UNIVERSAL ++ rest, off := off } =
      Except.ok (MACH_CIGAM_UNIVERSAL, { rem := rest, off := off + 4 }) := by
  have hb : enc32 false MACH_MAGIC_UNIVERSAL = enc32 true MACH_CIGAM_UNIVERSAL := by decide
  rw [hb, p_u32_enc true MACH_CIGAM_UNIVERSAL (by decide)]

theorem parse_fat_encode (e : Bool) (archs : List fat_arch)
    (h : ∀ a ∈ archs, fat_arch_wf a) (hlen : archs.length < 4294967296) :
    parse_fat_archs (encode_fat e archs) = Except.ok archs := by
  have hsplit : encode_fat e archs =
      enc32 e MACH_MAGIC_UNIVERSAL ++ (enc32 e archs.length ++
        ((archs.map (encode_fat_arch e)).flatten ++ [])) := by
    simp [encode_fat, List.append_assoc]
  rw [hsplit]
  simp only [parse_fat_archs]
  cases e with
  | true =>
      rw [p_u32_enc true MACH_MAGIC_UNIVERSAL (by decide)]
      simp only [pbind_ok]
      rw [p_fat_endian_magic]
      simp only [pbind_ok]
      rw [p_u32_enc true archs.length hlen]
      simp only [pbind_ok]
      rw [p_fat_archs_enc true archs h [] (0 + 4 + 4)]
      simp only [pbind_ok]
  | false =>
      rw [p_u32_raw_fat_cigam]
      simp only [pbind_ok]
      rw [p_fat_endian_cigam]
      simp only [pbind_ok]
      rw [p_u32_enc false archs.length hlen]
      simp only [pbind_ok]
      rw [p_fat_archs_enc false archs h [] (0 + 4 + 4)]
      simp only [pbind_ok]

/-- Claim C7: parsing the byte-swapped (opposite-endianness) copy of a valid
file succeeds and yields structurally equal decoded records: for every
well-formed abstract thin-64 file, the little-endian encoding and its
byte-swapped copy (the big-endian encoding) both parse to the same decoded
header, command descriptors, segments and symbols; and a universal (FAT)
arch table round-trips the same way at both magics. -/
theorem endianness_round_trip (f : macho_file_t) (hf : macho_file_wf f)
    (archs : List fat_arch) (ha : ∀ a ∈ archs, fat_arch_wf a)
    (hn : archs.length < 4294967296) :
    parse_macho (encode_macho_file true f) = parse_macho (encode_macho_file false f) ∧
    parse_macho (encode_macho_file true f) = Except.ok (expected_macho f) ∧
    parse_fat_archs (encode_fat true archs) = parse_fat_archs (encode_fat false archs) ∧
    parse_fat_archs (encode_fat true archs) = Except.ok archs := by
  refine ⟨?_, parse_encode true f hf, ?_, parse_fat_encode true archs ha hn⟩
  · rw [parse_encode true f hf, parse_encode false f hf]
  · rw [parse_fat_encode true archs ha hn, parse_fat_encode false archs ha hn]

theorem endianness_round_trip_witness :
    parse_macho (encode_macho_file true demo_file) =
      parse_macho (encode_macho_file false demo_file) :=
  (endianness_round_trip demo_file (by decide) [demo_arch] (by decide) (by decide)).1
